import Mathlib

/-!
Finance tracker front end: a shallow embedding of `app.js`, `sync.js`, `theme.js`.

The three scripts run in a browser.  Their functions are embedded as pure
functions over explicit inputs (the parsed response, the values of the input
elements, the storage, the clock) that return the effects the script performs.

JavaScript numbers are embedded as `JSNum`: `NaN`, the two infinities and the
finite values, a finite value being the rational number the double denotes.
Every operation that yields a number (reading a numeric text, `-`, `*`, `/`)
rounds its exact result to the nearest double, ties to even, with overflow to
an infinity and underflow to zero (`roundDouble`).  The sign of zero is not
part of the embedding.

Line 57 of `app.js` opens the declaration of `addExpense` with the word
`ffunction`; the embedding reads it as `function`.  The elements a function
writes to are taken to exist where the function does not test for them, and
the parsed response is taken to be an object (a `null` response raises a
`TypeError` before anything is computed).
-/

namespace Finance

/-! ## JavaScript numbers -/

/-- A JavaScript number: `NaN`, `-Infinity`, a finite value, `+Infinity`. -/
inductive JSNum where
  | nan : JSNum
  | ninf : JSNum
  | fin (q : ℚ) : JSNum
  | pinf : JSNum
deriving DecidableEq

/-- Negation of a number. -/
def JSNum.neg : JSNum → JSNum
  | JSNum.nan => JSNum.nan
  | JSNum.ninf => JSNum.pinf
  | JSNum.pinf => JSNum.ninf
  | JSNum.fin q => JSNum.fin (-q)

/-- The nearest integer, a tie going to the even one. -/
def roundHalfEven (y : ℚ) : ℤ :=
  if y - ⌊y⌋ < 1 / 2 then ⌊y⌋
  else if 1 / 2 < y - ⌊y⌋ then ⌊y⌋ + 1
  else if ⌊y⌋ % 2 = 0 then ⌊y⌋ else ⌊y⌋ + 1

/-- The exponent of the unit in the last place of the doubles of the magnitude
of `x > 0`: 53 significant bits, and never below the subnormal spacing
`2 ^ (-1074)`. -/
def ulpExp (x : ℚ) : ℤ :=
  max (Int.log 2 x - 52) (-1074)

/-- Rounding to the nearest multiple of `2 ^ e`, ties to even. -/
def roundGrid (e : ℤ) (x : ℚ) : ℚ :=
  (roundHalfEven (x / 2 ^ e) : ℚ) * 2 ^ e

/-- The double nearest to `x ≥ 0`; a result of `2 ^ 1024` or more is
`+Infinity`. -/
def roundMag (x : ℚ) : JSNum :=
  if (2 : ℚ) ^ (1024 : ℕ) ≤ roundGrid (ulpExp x) x then JSNum.pinf
  else JSNum.fin (roundGrid (ulpExp x) x)

/-- The double nearest to the rational `x` (IEEE 754 binary64, round to
nearest, ties to even). -/
def roundDouble (x : ℚ) : JSNum :=
  if x < 0 then (roundMag (-x)).neg else roundMag x

/-- The double a number written exactly in a text is read as. -/
def JSNum.round : JSNum → JSNum
  | JSNum.fin q => roundDouble q
  | a => a

namespace JSNum

/-- ToBoolean on a number: `NaN` and zero are falsy. -/
def truthy : JSNum → Bool
  | nan => false
  | fin q => decide (q ≠ 0)
  | _ => true

/-- The operator `a < b`. -/
def lt : JSNum → JSNum → Bool
  | nan, _ => false
  | _, nan => false
  | ninf, ninf => false
  | ninf, _ => true
  | _, ninf => false
  | pinf, _ => false
  | fin _, pinf => true
  | fin a, fin b => decide (a < b)

/-- The operator `a <= b`. -/
def le : JSNum → JSNum → Bool
  | nan, _ => false
  | _, nan => false
  | ninf, _ => true
  | _, pinf => true
  | pinf, _ => false
  | fin _, ninf => false
  | fin a, fin b => decide (a ≤ b)

/-- The operator `a - b`; the difference of finite values is rounded. -/
def sub : JSNum → JSNum → JSNum
  | nan, _ => nan
  | _, nan => nan
  | pinf, pinf => nan
  | ninf, ninf => nan
  | pinf, _ => pinf
  | ninf, _ => ninf
  | fin _, pinf => ninf
  | fin _, ninf => pinf
  | fin a, fin b => roundDouble (a - b)

/-- The operator `a * b`; the product of finite values is rounded. -/
def mul : JSNum → JSNum → JSNum
  | nan, _ => nan
  | _, nan => nan
  | fin a, fin b => roundDouble (a * b)
  | fin a, pinf => if a = 0 then nan else if 0 < a then pinf else ninf
  | fin a, ninf => if a = 0 then nan else if 0 < a then ninf else pinf
  | pinf, fin b => if b = 0 then nan else if 0 < b then pinf else ninf
  | ninf, fin b => if b = 0 then nan else if 0 < b then ninf else pinf
  | pinf, pinf => pinf
  | ninf, ninf => pinf
  | pinf, ninf => ninf
  | ninf, pinf => ninf

/-- The operator `a / b`; the quotient of finite values is rounded, and a zero
divisor is the positive zero. -/
def div : JSNum → JSNum → JSNum
  | nan, _ => nan
  | _, nan => nan
  | fin a, fin b =>
    if b = 0 then (if a = 0 then nan else if 0 < a then pinf else ninf)
    else roundDouble (a / b)
  | fin _, pinf => fin 0
  | fin _, ninf => fin 0
  | pinf, fin b => if 0 ≤ b then pinf else ninf
  | ninf, fin b => if 0 ≤ b then ninf else pinf
  | pinf, pinf => nan
  | pinf, ninf => nan
  | ninf, pinf => nan
  | ninf, ninf => nan

/-- The built-in `Math.min(a, b)`. -/
def mathMin : JSNum → JSNum → JSNum
  | nan, _ => nan
  | _, nan => nan
  | a, b => if lt b a then b else a

/-- The built-in `Math.max(a, b)`. -/
def mathMax : JSNum → JSNum → JSNum
  | nan, _ => nan
  | _, nan => nan
  | a, b => if lt a b then b else a

/-- The built-in `Math.round(a)`: the nearest integer, ties upwards. -/
def mathRound : JSNum → JSNum
  | fin q => fin (⌊q + 1 / 2⌋ : ℤ)
  | a => a

end JSNum

/-! ## Strings as numbers: the built-in `Number` applied to a string -/

/-- White space and line terminators skipped around a numeric string. -/
def isStrWhiteSpace (c : Char) : Bool :=
  let n := c.toNat
  n = 0x9 || n = 0xA || n = 0xB || n = 0xC || n = 0xD || n = 0x20 || n = 0xA0
    || n = 0x1680 || (0x2000 ≤ n && n ≤ 0x200A) || n = 0x2028 || n = 0x2029
    || n = 0x202F || n = 0x205F || n = 0x3000 || n = 0xFEFF

/-- The characters of a string without leading and trailing white space. -/
def trimChars (cs : List Char) : List Char :=
  ((cs.dropWhile isStrWhiteSpace).reverse.dropWhile isStrWhiteSpace).reverse

/-- The value of a digit in the given base, if the character is one. -/
def digitOf (base : Nat) (c : Char) : Option Nat :=
  let n := c.toNat
  let v : Option Nat :=
    if 48 ≤ n ∧ n ≤ 57 then some (n - 48)
    else if 97 ≤ n ∧ n ≤ 102 then some (n - 87)
    else if 65 ≤ n ∧ n ≤ 70 then some (n - 55)
    else none
  match v with
  | some d => if d < base then some d else none
  | none => none

/-- The longest run of leading digits and what follows it. -/
def spanDigits (base : Nat) : List Char → List Nat × List Char
  | [] => ([], [])
  | c :: cs =>
    match digitOf base c with
    | some d => (d :: (spanDigits base cs).1, (spanDigits base cs).2)
    | none => ([], c :: cs)

/-- The number written by a list of digits, most significant first. -/
def digitsValue (base : Nat) (ds : List Nat) : Nat :=
  ds.foldl (fun acc d => acc * base + d) 0

/-- The exponent part: nothing, or `e`/`E`, an optional sign and digits, up to
the end of the text. -/
def parseExponent : List Char → Option Int
  | [] => some 0
  | c :: cs =>
    if c = 'e' ∨ c = 'E' then
      match cs with
      | '-' :: r =>
        match spanDigits 10 r with
        | (d :: ds, []) => some (-(digitsValue 10 (d :: ds) : Int))
        | _ => none
      | '+' :: r =>
        match spanDigits 10 r with
        | (d :: ds, []) => some (digitsValue 10 (d :: ds) : Int)
        | _ => none
      | r =>
        match spanDigits 10 r with
        | (d :: ds, []) => some (digitsValue 10 (d :: ds) : Int)
        | _ => none
    else none

/-- A numeric literal as read from text: `Infinity`, or the digits of the
mantissa as one natural number `m` with a decimal exponent `e`, denoting
`m * 10 ^ e`. -/
inductive NumLit where
  | infinity : NumLit
  | dec (m : Nat) (e : Int) : NumLit
deriving DecidableEq

/-- An unsigned decimal literal: `Infinity`, or digits with an optional
fraction and exponent. -/
def parseUnsignedDecimal (cs : List Char) : Option NumLit :=
  if cs = ['I', 'n', 'f', 'i', 'n', 'i', 't', 'y'] then some NumLit.infinity
  else
    let ip := (spanDigits 10 cs).1
    let r1 := (spanDigits 10 cs).2
    let fp : List Nat := match r1 with
      | '.' :: r => (spanDigits 10 r).1
      | _ => []
    let r2 : List Char := match r1 with
      | '.' :: r => (spanDigits 10 r).2
      | _ => r1
    if ip = [] ∧ fp = [] then none
    else
      match parseExponent r2 with
      | none => none
      | some e => some (NumLit.dec (digitsValue 10 (ip ++ fp)) (e - fp.length))

/-- A hexadecimal, octal or binary integer literal. -/
def parseNonDecimal : List Char → Option NumLit
  | '0' :: p :: cs =>
    let base : Nat :=
      if p = 'x' ∨ p = 'X' then 16
      else if p = 'o' ∨ p = 'O' then 8
      else if p = 'b' ∨ p = 'B' then 2
      else 0
    if base = 0 then none
    else
      match spanDigits base cs with
      | (d :: ds, []) => some (NumLit.dec (digitsValue base (d :: ds)) 0)
      | _ => none
  | _ => none

/-- A numeric string after trimming: whether it is negated, and its literal;
`none` when the text is no numeric literal.  The empty text is the literal 0. -/
def parseNumeric (cs : List Char) : Option (Bool × NumLit) :=
  if cs = [] then some (false, NumLit.dec 0 0)
  else
    match parseNonDecimal cs with
    | some n => some (false, n)
    | none =>
      match cs with
      | '+' :: r => (parseUnsignedDecimal r).map (fun n => (false, n))
      | '-' :: r => (parseUnsignedDecimal r).map (fun n => (true, n))
      | _ => (parseUnsignedDecimal cs).map (fun n => (false, n))

/-- A mantissa scaled by a power of ten. -/
def scale10 (m : ℚ) (e : Int) : ℚ :=
  if 0 ≤ e then m * (10 : ℚ) ^ e.toNat else m / (10 : ℚ) ^ (-e).toNat

/-- The number a literal is read as: the double nearest to what it denotes. -/
def NumLit.value : NumLit → JSNum
  | NumLit.infinity => JSNum.pinf
  | NumLit.dec m e => roundDouble (scale10 (m : ℚ) e)

/-- The built-in `Number(s)` on a string: white space is trimmed, the empty
text is 0, text that is no numeric literal is `NaN`, and a literal is the
double nearest to what it denotes. -/
def stringToNumber (s : String) : JSNum :=
  match parseNumeric (trimChars s.toList) with
  | none => JSNum.nan
  | some (false, n) => n.value
  | some (true, n) => n.value.neg

/-! ## Values found in a parsed response -/

/-- A value of a property of the parsed JSON response.  A number is kept as
what its text denotes, and is read as the nearest double.  An array or object
is kept as the text its `toString()` gives, which is all `Number` reads of
it. -/
inductive JSVal where
  | undefined : JSVal
  | null : JSVal
  | bool (b : Bool) : JSVal
  | num (n : JSNum) : JSVal
  | str (s : String) : JSVal
  | object (toStr : String) : JSVal
deriving DecidableEq

/-- ToBoolean. -/
def JSVal.truthy : JSVal → Bool
  | JSVal.undefined => false
  | JSVal.null => false
  | JSVal.bool b => b
  | JSVal.num n => n.round.truthy
  | JSVal.str s => decide (s ≠ "")
  | JSVal.object _ => true

/-- The operator `a || b`. -/
def JSVal.or (a b : JSVal) : JSVal :=
  if a.truthy then a else b

/-- The built-in `Number(v)`. -/
def JSVal.toNumber : JSVal → JSNum
  | JSVal.undefined => JSNum.nan
  | JSVal.null => JSNum.fin 0
  | JSVal.bool b => if b then JSNum.fin 1 else JSNum.fin 0
  | JSVal.num n => n.round
  | JSVal.str s => stringToNumber s
  | JSVal.object t => stringToNumber t

/-- The own properties of the parsed response, in the order of the text. -/
abbrev Fields := List (String × JSVal)

/-- Property access `data.k`: the last occurrence of the key, `undefined`
when the key is missing. -/
def getProp (data : Fields) (k : String) : JSVal :=
  match data.reverse.find? (fun p => p.1 == k) with
  | some p => p.2
  | none => JSVal.undefined

/-! ## Number formatting and the clock -/

/-- The decimal digit character of `n % 10`. -/
def digitChar (n : Nat) : Char :=
  Char.ofNat (48 + n % 10)

/-- The decimal digits of a natural number, most significant first; `fuel`
bounds the number of digits. -/
def natDigits : Nat → Nat → List Char
  | 0, _ => []
  | fuel + 1, n => if n < 10 then [digitChar n] else natDigits fuel (n / 10) ++ [digitChar n]

/-- Digits, least significant first, with a comma after every third one that
has a successor; `k` counts the digits since the last comma. -/
def groupRev : Nat → List Char → List Char
  | _, [] => []
  | k, c :: cs => if k = 3 then ',' :: c :: groupRev 1 cs else c :: groupRev (k + 1) cs

/-- The fraction digits of thousandths `n < 1000`, trailing zeros dropped. -/
def fractionDigits (n : Nat) : List Char :=
  if n % 1000 = 0 then []
  else if n % 100 = 0 then ['.', digitChar (n / 100)]
  else if n % 10 = 0 then ['.', digitChar (n / 100), digitChar (n / 10)]
  else ['.', digitChar (n / 100), digitChar (n / 10), digitChar n]

/-- The built-in `Number.prototype.toLocaleString()` in the `en-US` locale:
at most three fraction digits, rounded half away from zero, the integer part
grouped in threes by commas. -/
def toLocaleString : JSNum → String
  | JSNum.nan => "NaN"
  | JSNum.pinf => "∞"
  | JSNum.ninf => "-∞"
  | JSNum.fin q =>
    let n : Nat := (⌊|q| * 1000 + 1 / 2⌋ : ℤ).toNat
    let ip := n / 1000
    let grouped := (groupRev 0 (natDigits (ip + 1) ip).reverse).reverse
    String.mk ((if q < 0 then ['-'] else []) ++ grouped ++ fractionDigits (n % 1000))

/-- Year, month and day of the month (UTC) of the day number `day`, counted
from 1970-01-01. -/
def civilFromDays (day : Int) : Int × Int × Int :=
  let z := day + 719468
  let era := z / 146097
  let doe := z % 146097
  let yoe := (doe - doe / 1460 + doe / 36524 - doe / 146096) / 365
  let doy := doe - (365 * yoe + yoe / 4 - yoe / 100)
  let mp := (5 * doy + 2) / 153
  let d := doy - (153 * mp + 2) / 5 + 1
  let m := if mp < 10 then mp + 3 else mp - 9
  let y := if m ≤ 2 then yoe + era * 400 + 1 else yoe + era * 400
  (y, m, d)

/-- Two decimal digits. -/
def pad2 (n : Nat) : List Char :=
  [digitChar (n / 10), digitChar n]

/-- Three decimal digits. -/
def pad3 (n : Nat) : List Char :=
  [digitChar (n / 100), digitChar (n / 10), digitChar n]

/-- The year of an ISO date: four digits from 0 to 9999, otherwise a sign and
six digits. -/
def isoYear (y : Int) : List Char :=
  let n := y.natAbs
  if 0 ≤ y ∧ y ≤ 9999 then
    [digitChar (n / 1000), digitChar (n / 100), digitChar (n / 10), digitChar n]
  else
    (if y < 0 then '-' else '+') ::
      [digitChar (n / 100000), digitChar (n / 10000), digitChar (n / 1000),
       digitChar (n / 100), digitChar (n / 10), digitChar n]

/-- The built-in `Date.prototype.toISOString()` of the instant `t`, in
milliseconds since 1970-01-01T00:00:00Z. -/
def toISOString (t : Int) : List Char :=
  let ymd := civilFromDays (t / 86400000)
  let ms := (t % 86400000).toNat
  isoYear ymd.1 ++ ['-'] ++ pad2 ymd.2.1.toNat ++ ['-'] ++ pad2 ymd.2.2.toNat ++ ['T']
    ++ pad2 (ms / 3600000) ++ [':'] ++ pad2 (ms / 60000 % 60) ++ [':']
    ++ pad2 (ms / 1000 % 60) ++ ['.'] ++ pad3 (ms % 1000) ++ ['Z']

/-! ## Requests and effects -/

/-- A scalar of a JSON text. -/
inductive JsonScalar where
  | null : JsonScalar
  | num (q : ℚ) : JsonScalar
  | str (s : String) : JsonScalar
deriving DecidableEq

/-- What `JSON.stringify` writes for a number: `null` unless it is finite. -/
def jsonOfNumber : JSNum → JsonScalar
  | JSNum.fin q => JsonScalar.num q
  | _ => JsonScalar.null

/-- A request handed to `fetch`.  The body is the JSON object that
`JSON.stringify` wrote, as its members in order. -/
structure Request where
  method : String
  url : String
  headers : List (String × String)
  body : Option (List (String × JsonScalar))
deriving DecidableEq

/-- An effect of a script on the browser. -/
inductive Effect where
  | alert (msg : String) : Effect
  | fetch (req : Request) : Effect
  | setValue (id : String) (value : String) : Effect
  | call (name : String) : Effect
deriving DecidableEq

/-- What the scripts read from the browser: the origin of the page, the
`token` entry of the storage and the values of the input elements. -/
structure Page where
  origin : String
  token : Option String
  expDesc : String
  expCategory : String
  expAmount : String
  budgetMonth : String
  budgetAmount : String

/-- Lines 7-12 of `app.js`, `authHeaders`: a missing token is written `null`. -/
def authHeaders (token : Option String) : List (String × String) :=
  [("Content-Type", "application/json"),
   ("Authorization", "Bearer " ++ token.getD "null")]

/-- The request of a `fetch` with headers only: a GET without body. -/
def getRequest (p : Page) (path : String) : Request :=
  { method := "GET", url := p.origin ++ path, headers := authHeaders p.token, body := none }

/-! ## `app.js`: the dashboard -/

/-- The configuration handed to the charting library. -/
structure ChartConfig where
  type : String
  labels : List String
  data : List JSNum
  backgroundColor : List String
deriving DecidableEq

/-- What happened to chart instances, in order. -/
inductive ChartEvent where
  | created (id : Nat) (canvas : String) (config : ChartConfig) : ChartEvent
  | destroyed (id : Nat) : ChartEvent
deriving DecidableEq

/-- The module variable `barChart` of line 36 together with the charting
library: `barChart` is the handle (`none` while it is `undefined`), `live` the
instances created and not destroyed, `next` the identity of the next instance
and `events` the history. -/
structure ChartState where
  barChart : Option Nat
  live : List Nat
  next : Nat
  events : List ChartEvent
deriving DecidableEq

/-- The state when the script has loaded: no handle, no instance. -/
def ChartState.init : ChartState :=
  { barChart := none, live := [], next := 0, events := [] }

/-- The method `destroy()` of the instance `id`. -/
def ChartState.destroy (s : ChartState) (id : Nat) : ChartState :=
  { s with live := s.live.filter (fun i => i != id),
           events := s.events ++ [ChartEvent.destroyed id] }

/-- The constructor `new Chart(ctx, config)`: a fresh instance, whose identity
is returned with the new state. -/
def ChartState.create (s : ChartState) (canvas : String) (config : ChartConfig) :
    Nat × ChartState :=
  (s.next,
   { s with live := s.live ++ [s.next],
            next := s.next + 1,
            events := s.events ++ [ChartEvent.created s.next canvas config] })

/-- Lines 37-54 of `app.js`, `drawBarChart(income, expenses)`; `ctx` tells
whether the document has an element `barChart`. -/
def drawBarChart (ctx : Bool) (income expenses : JSNum) (s : ChartState) : ChartState :=
  if !ctx then s
  else
    let s1 := match s.barChart with
      | some old => s.destroy old
      | none => s
    let made := s1.create "barChart"
      { type := "bar", labels := ["Income", "Expenses"], data := [income, expenses],
        backgroundColor := ["#1cc88a", "#e74a3b"] }
    { made.2 with barChart := some made.1 }

/-- One call of `drawBarChart`: whether the canvas exists, and the arguments. -/
structure DrawCall where
  ctx : Bool
  income : JSNum
  expenses : JSNum

/-- A sequence of calls of `drawBarChart`, from the state `s`. -/
def drawAll (calls : List DrawCall) (s : ChartState) : ChartState :=
  calls.foldl (fun st c => drawBarChart c.ctx c.income c.expenses st) s

/-- The three texts `loadSummary` writes and the state of the charts after it. -/
structure SummaryView where
  totalIncome : String
  totalExpenses : String
  netBalance : String
  charts : ChartState
deriving DecidableEq

/-- Line 21 of `app.js`: the request of `loadSummary`. -/
def loadSummary (p : Page) : Request :=
  getRequest p "/net-balance"

/-- Lines 23-33 of `app.js`: what `loadSummary` does with the parsed response. -/
def loadSummaryThen (data : Fields) (ctx : Bool) (s : ChartState) : SummaryView :=
  let income := ((getProp data "total_income").or (JSVal.num (JSNum.fin 0))).toNumber
  let expenses := ((getProp data "total_expenses").or (JSVal.num (JSNum.fin 0))).toNumber
  let balance := ((getProp data "net_balance").or (JSVal.num (JSNum.fin 0))).toNumber
  { totalIncome := "GHS " ++ toLocaleString income,
    totalExpenses := "GHS " ++ toLocaleString expenses,
    netBalance := "GHS " ++ toLocaleString balance,
    charts := drawBarChart ctx income expenses s }

/-! ## `app.js`: expenses -/

/-- Lines 96-97 of `app.js`: the request of `loadCategoryChart`. -/
def loadCategoryChart (p : Page) : Request :=
  getRequest p "/expenses-by-category"

/-- Lines 58-76 of `app.js`, `addExpense` up to the `fetch`; `now` is the
clock, in milliseconds since 1970-01-01T00:00:00Z. -/
def addExpense (p : Page) (now : Int) : List Effect :=
  let description := p.expDesc
  let category := p.expCategory
  let amount := stringToNumber p.expAmount
  if description = "" ∨ amount.truthy = false then
    [Effect.alert "Please enter description and amount"]
  else
    [Effect.fetch
      { method := "POST",
        url := p.origin ++ "/expenses",
        headers := authHeaders p.token,
        body := some
          [("description", JsonScalar.str description),
           ("category", JsonScalar.str category),
           ("amount", jsonOfNumber amount),
           ("date", JsonScalar.str (String.mk ((toISOString now).take 10)))] }]

/-- The outcome of a `fetch`: a network failure with its message, or a
response with its `ok` flag, its text, and the message of the error that
reading the text as JSON raises, if it raises one. -/
inductive Outcome where
  | failed (message : String) : Outcome
  | response (ok : Bool) (text : String) (jsonError : Option String) : Outcome

/-- Lines 77-91 of `app.js`: what `addExpense` does with the outcome of its
request. -/
def addExpenseThen (p : Page) : Outcome → List Effect
  | Outcome.failed message => [Effect.alert ("Expense error: " ++ message)]
  | Outcome.response false text _ => [Effect.alert ("Expense error: " ++ text)]
  | Outcome.response true _ (some message) => [Effect.alert ("Expense error: " ++ message)]
  | Outcome.response true _ none =>
    [Effect.setValue "exp_desc" "", Effect.setValue "exp_amount" "",
     Effect.fetch (loadCategoryChart p), Effect.fetch (loadSummary p)]

/-! ## `app.js`: the budget -/

/-- Line 155 of `app.js`: the request of `loadBudget(month)`; `none` is a call
without argument, where the template writes `undefined`. -/
def loadBudget (p : Page) (month : Option String) : Request :=
  getRequest p ("/budget-status/" ++ month.getD "undefined")

/-- Line 161 of `app.js`: the percent, with the divisions evaluated on the
way, each as (dividend, divisor). -/
def budgetPercent (budget spent : JSNum) : JSNum × List (JSNum × JSNum) :=
  if budget.truthy then
    (JSNum.mathMin (JSNum.mul (JSNum.div spent budget) (JSNum.fin 100)) (JSNum.fin 100),
     [(spent, budget)])
  else (JSNum.fin 0, [])

/-- Lines 168-169 of `app.js`: the style of the progress bar. -/
def budgetStyle (percent : JSNum) : String :=
  if JSNum.lt percent (JSNum.fin 70) then "bg-success"
  else if JSNum.lt percent (JSNum.fin 90) then "bg-warning"
  else "bg-danger"

/-- What `loadBudget` writes to the page.  `width` is the number written
before `%` in the width of the bar, `label` the number written before `%` in
its text. -/
structure BarUpdate where
  width : JSNum
  label : JSNum
  className : String
  used : String
  remaining : String
deriving DecidableEq

/-- The figures `loadBudget` computes, with the divisions evaluated, and the
update of the page, which is `none` when the page has no progress bar. -/
structure BudgetView where
  budget : JSNum
  spent : JSNum
  remaining : JSNum
  percent : JSNum
  divisions : List (JSNum × JSNum)
  update : Option BarUpdate
deriving DecidableEq

/-- Lines 157-173 of `app.js`: what `loadBudget` does with the parsed response;
`bar` tells whether the document has an element `budgetProgress`. -/
def loadBudgetThen (data : Fields) (bar : Bool) : BudgetView :=
  let budget := ((getProp data "budget").or (JSVal.num (JSNum.fin 0))).toNumber
  let spent := ((getProp data "spent").or (JSVal.num (JSNum.fin 0))).toNumber
  let remaining := JSNum.mathMax (JSNum.sub budget spent) (JSNum.fin 0)
  let percent := budgetPercent budget spent
  { budget := budget, spent := spent, remaining := remaining,
    percent := percent.1, divisions := percent.2,
    update :=
      if !bar then none
      else some
        { width := percent.1,
          label := JSNum.mathRound percent.1,
          className := "progress-bar " ++ budgetStyle percent.1,
          used := "Used: GHS " ++ toLocaleString spent,
          remaining := "Remaining: GHS " ++ toLocaleString remaining } }

/-- The remaining amount as the specification words it, over the rationals:
`max(budget - spent, 0)`. -/
def remainingSpec (budget spent : ℚ) : ℚ :=
  max (budget - spent) 0

/-- Lines 124-140 of `app.js`, `setBudget` up to the `fetch`. -/
def setBudget (p : Page) : List Effect :=
  let month := p.budgetMonth
  let amount := stringToNumber p.budgetAmount
  if month = "" ∨ amount.truthy = false then
    [Effect.alert "Please enter month and budget amount"]
  else
    [Effect.fetch
      { method := "POST",
        url := p.origin ++ "/budget",
        headers := authHeaders p.token,
        body := some [("month", JsonScalar.str month), ("amount", jsonOfNumber amount)] }]

/-! ## `sync.js` -/

/-- Which of the names `refreshAll` probes are functions in the scope. -/
structure Scope where
  loadSummary : Bool
  loadChart : Bool
  loadExpenses : Bool
  loadBudget : Bool
  loadReports : Bool

/-- Lines 2-15 of `sync.js`, `refreshAll`.  The functions of `app.js` are
embedded by the request they issue; a function these files do not define is
recorded as a call. -/
def refreshAll (sc : Scope) (p : Page) : List Effect :=
  (if sc.loadSummary then [Effect.fetch (loadSummary p)] else [])
    ++ (if sc.loadChart then [Effect.call "loadChart"] else [])
    ++ (if sc.loadExpenses then [Effect.call "loadExpenses"] else [])
    ++ (if sc.loadBudget then [Effect.fetch (loadBudget p none)] else [])
    ++ (if sc.loadReports then [Effect.call "loadReports"] else [])

/-! ## `theme.js` -/

/-- The local storage: keys with their values. -/
abbrev Storage := List (String × String)

/-- The method `getItem(k)`; `none` is `null`. -/
def getItem : Storage → String → Option String
  | [], _ => none
  | (k1, v) :: rest, k => if k1 = k then some v else getItem rest k

/-- The method `setItem(k, v)`. -/
def setItem : Storage → String → String → Storage
  | [], k, v => [(k, v)]
  | (k1, v1) :: rest, k, v => if k1 = k then (k, v) :: rest else (k1, v1) :: setItem rest k v

/-- The storage and the attribute `data-theme` of the document element. -/
structure ThemeState where
  storage : Storage
  dataTheme : Option String
deriving DecidableEq

/-- The expression `localStorage.getItem("theme") || "light"`. -/
def currentTheme (st : Storage) : String :=
  match getItem st "theme" with
  | some t => if t = "" then "light" else t
  | none => "light"

/-- Lines 1-4 of `theme.js`, `applyTheme`. -/
def applyTheme (s : ThemeState) : ThemeState :=
  { s with dataTheme := some (currentTheme s.storage) }

/-- Lines 6-11 of `theme.js`, `toggleDark`. -/
def toggleDark (s : ThemeState) : ThemeState :=
  let current := currentTheme s.storage
  let next := if current = "dark" then "light" else "dark"
  applyTheme { s with storage := setItem s.storage "theme" next }


/-! ## Facts about rounding to doubles -/

theorem roundHalfEven_intCast (n : ℤ) : roundHalfEven (n : ℚ) = n := by
  simp [roundHalfEven]

theorem roundHalfEven_le_floor_add_one (y : ℚ) : roundHalfEven y ≤ ⌊y⌋ + 1 := by
  unfold roundHalfEven
  split_ifs <;> omega

theorem floor_le_roundHalfEven (y : ℚ) : ⌊y⌋ ≤ roundHalfEven y := by
  unfold roundHalfEven
  split_ifs <;> omega

theorem roundHalfEven_mono (a b : ℚ) (h : a ≤ b) : roundHalfEven a ≤ roundHalfEven b := by
  have hfl : ⌊a⌋ ≤ ⌊b⌋ := Int.floor_mono h
  rcases lt_or_eq_of_le hfl with hlt | heq
  · calc roundHalfEven a ≤ ⌊a⌋ + 1 := roundHalfEven_le_floor_add_one a
      _ ≤ ⌊b⌋ := hlt
      _ ≤ roundHalfEven b := floor_le_roundHalfEven b
  · unfold roundHalfEven
    rw [heq]
    have hr : a - (⌊b⌋ : ℚ) ≤ b - (⌊b⌋ : ℚ) := by linarith
    split_ifs <;> first | omega | (exfalso; linarith)

theorem roundHalfEven_nonneg (y : ℚ) (h : 0 ≤ y) : 0 ≤ roundHalfEven y := by
  have := roundHalfEven_mono 0 y h
  have h0 : roundHalfEven (0 : ℚ) = 0 := by
    have := roundHalfEven_intCast 0
    simpa using this
  omega

theorem two_zpow_pos (e : ℤ) : (0 : ℚ) < 2 ^ e := zpow_pos (by norm_num) e

theorem roundGrid_mono (e : ℤ) (x y : ℚ) (h : x ≤ y) : roundGrid e x ≤ roundGrid e y := by
  unfold roundGrid
  have hp := two_zpow_pos e
  have hd : x / 2 ^ e ≤ y / 2 ^ e := div_le_div_of_nonneg_right h (le_of_lt hp)
  have hr := roundHalfEven_mono _ _ hd
  have hc : (roundHalfEven (x / 2 ^ e) : ℚ) ≤ (roundHalfEven (y / 2 ^ e) : ℚ) := by
    exact_mod_cast hr
  exact mul_le_mul_of_nonneg_right hc (le_of_lt hp)

theorem roundGrid_fix (e : ℤ) (n : ℤ) : roundGrid e ((n : ℚ) * 2 ^ e) = (n : ℚ) * 2 ^ e := by
  unfold roundGrid
  have hp := two_zpow_pos e
  rw [mul_div_assoc, div_self (ne_of_gt hp), mul_one, roundHalfEven_intCast]

theorem roundGrid_fix_zpow (e k : ℤ) (h : e ≤ k) : roundGrid e ((2 : ℚ) ^ k) = (2 : ℚ) ^ k := by
  have hk : (2 : ℚ) ^ k = (((2 : ℤ) ^ (k - e).toNat : ℤ) : ℚ) * 2 ^ e := by
    have h1 : ((k - e).toNat : ℤ) = k - e := Int.toNat_of_nonneg (by omega)
    push_cast
    rw [← zpow_natCast, h1, ← zpow_add₀ (by norm_num : (2 : ℚ) ≠ 0)]
    congr 1
    ring
  rw [hk]
  exact roundGrid_fix e _

theorem roundGrid_nonneg (e : ℤ) (x : ℚ) (h : 0 ≤ x) : 0 ≤ roundGrid e x := by
  unfold roundGrid
  have hp := two_zpow_pos e
  have h1 : 0 ≤ x / 2 ^ e := div_nonneg h (le_of_lt hp)
  have h2 := roundHalfEven_nonneg _ h1
  have h3 : (0 : ℚ) ≤ (roundHalfEven (x / 2 ^ e) : ℚ) := by exact_mod_cast h2
  exact mul_nonneg h3 (le_of_lt hp)

theorem ulpExp_ge (x : ℚ) : -1074 ≤ ulpExp x := le_max_right _ _

theorem lt_zpow_ulpExp (x : ℚ) : x < 2 ^ (ulpExp x + 53) := by
  have h1 : x < ((2 : ℕ) : ℚ) ^ (Int.log 2 x + 1) := Int.lt_zpow_succ_log_self (by norm_num) x
  have h2 : Int.log 2 x + 1 ≤ ulpExp x + 53 := by
    have := le_max_left (Int.log 2 x - 52) (-1074)
    unfold ulpExp
    omega
  have h3 : ((2 : ℕ) : ℚ) ^ (Int.log 2 x + 1) ≤ ((2 : ℕ) : ℚ) ^ (ulpExp x + 53) :=
    zpow_le_zpow_right₀ (by norm_num) h2
  have h4 := lt_of_lt_of_le h1 h3
  simpa using h4

theorem zpow_le_of_ulpExp (x : ℚ) (hx : 0 < x) (h : -1074 < ulpExp x) :
    (2 : ℚ) ^ (ulpExp x + 52) ≤ x := by
  have h1 : ulpExp x = Int.log 2 x - 52 := by
    unfold ulpExp at h ⊢
    rcases max_cases (Int.log 2 x - 52) (-1074) with ⟨h2, _⟩ | ⟨h2, _⟩
    · exact h2
    · rw [h2] at h; omega
  have h2 : ((2 : ℕ) : ℚ) ^ Int.log 2 x ≤ x := Int.zpow_log_le_self (by norm_num) hx
  rw [h1]
  have h3 : Int.log 2 x - 52 + 52 = Int.log 2 x := by ring
  rw [h3]
  simpa using h2

theorem ulpExp_mono (x y : ℚ) (hx : 0 < x) (h : x ≤ y) : ulpExp x ≤ ulpExp y := by
  unfold ulpExp
  have := Int.log_mono_right (b := 2) hx h
  exact max_le_max (by omega) le_rfl

theorem roundGrid_ulp_mono (x y : ℚ) (hx : 0 ≤ x) (h : x ≤ y) :
    roundGrid (ulpExp x) x ≤ roundGrid (ulpExp y) y := by
  rcases eq_or_lt_of_le hx with h0 | hpos
  · rw [← h0]
    have : roundGrid (ulpExp 0) 0 = 0 := by
      have := roundGrid_fix (ulpExp 0) 0
      simpa using this
    rw [this]
    exact roundGrid_nonneg _ _ (le_trans hx h)
  · have he := ulpExp_mono x y hpos h
    rcases eq_or_lt_of_le he with heq | hlt
    · rw [heq]
      exact roundGrid_mono _ _ _ h
    · have hy1 : -1074 < ulpExp y := lt_of_le_of_lt (ulpExp_ge x) hlt
      have hP : (2 : ℚ) ^ (ulpExp y + 52) ≤ y :=
        zpow_le_of_ulpExp y (lt_of_lt_of_le hpos h) hy1
      have hxP : x ≤ (2 : ℚ) ^ (ulpExp y + 52) := by
        have h1 := lt_zpow_ulpExp x
        have h2 : (2 : ℚ) ^ (ulpExp x + 53) ≤ (2 : ℚ) ^ (ulpExp y + 52) :=
          zpow_le_zpow_right₀ (by norm_num) (by omega)
        exact le_of_lt (lt_of_lt_of_le h1 h2)
      calc roundGrid (ulpExp x) x
          ≤ roundGrid (ulpExp x) ((2 : ℚ) ^ (ulpExp y + 52)) := roundGrid_mono _ _ _ hxP
        _ = (2 : ℚ) ^ (ulpExp y + 52) := roundGrid_fix_zpow _ _ (by omega)
        _ = roundGrid (ulpExp y) ((2 : ℚ) ^ (ulpExp y + 52)) :=
            (roundGrid_fix_zpow _ _ (by omega)).symm
        _ ≤ roundGrid (ulpExp y) y := roundGrid_mono _ _ _ hP

theorem roundGrid_ulp_grid (m e : ℤ) (hm : 0 ≤ m) (he : -1074 ≤ e)
    (h1 : (m : ℚ) * 2 ^ e < 2 ^ (e + 53)) :
    roundGrid (ulpExp ((m : ℚ) * 2 ^ e)) ((m : ℚ) * 2 ^ e) = (m : ℚ) * 2 ^ e := by
  have hp := two_zpow_pos e
  have hx0 : (0 : ℚ) ≤ (m : ℚ) * 2 ^ e := mul_nonneg (by exact_mod_cast hm) (le_of_lt hp)
  rcases eq_or_lt_of_le hx0 with h0 | hpos
  · rw [← h0]
    have := roundGrid_fix (ulpExp 0) 0
    simpa using this
  · have hu : ulpExp ((m : ℚ) * 2 ^ e) ≤ e := by
      have hlog : Int.log 2 ((m : ℚ) * 2 ^ e) < e + 53 := by
        rw [← Int.lt_zpow_iff_log_lt (by norm_num) hpos]
        simpa using h1
      unfold ulpExp
      exact max_le (by omega) he
    have hk : (m : ℚ) * 2 ^ e
        = ((m * (2 : ℤ) ^ (e - ulpExp ((m : ℚ) * 2 ^ e)).toNat : ℤ) : ℚ)
            * 2 ^ ulpExp ((m : ℚ) * 2 ^ e) := by
      have h2 : ((e - ulpExp ((m : ℚ) * 2 ^ e)).toNat : ℤ) = e - ulpExp ((m : ℚ) * 2 ^ e) :=
        Int.toNat_of_nonneg (by omega)
      push_cast
      rw [← zpow_natCast, h2, mul_assoc, ← zpow_add₀ (by norm_num : (2 : ℚ) ≠ 0)]
      congr 2
      ring
    have hfix := roundGrid_fix (ulpExp ((m : ℚ) * 2 ^ e))
      (m * (2 : ℤ) ^ (e - ulpExp ((m : ℚ) * 2 ^ e)).toNat)
    rw [← hk] at hfix
    exact hfix

theorem roundMag_grid (m e : ℤ) (hm : 0 ≤ m) (he : -1074 ≤ e)
    (h1 : (m : ℚ) * 2 ^ e < 2 ^ (e + 53)) (h2 : (m : ℚ) * 2 ^ e < 2 ^ (1024 : ℕ)) :
    roundMag ((m : ℚ) * 2 ^ e) = JSNum.fin ((m : ℚ) * 2 ^ e) := by
  unfold roundMag
  rw [roundGrid_ulp_grid m e hm he h1]
  simp [not_le.mpr h2]

theorem roundMag_mono (x y : ℚ) (hx : 0 ≤ x) (h : x ≤ y) :
    JSNum.le (roundMag x) (roundMag y) = true := by
  have hg := roundGrid_ulp_mono x y hx h
  unfold roundMag
  by_cases h1 : (2 : ℚ) ^ (1024 : ℕ) ≤ roundGrid (ulpExp x) x
  · have h2 : (2 : ℚ) ^ (1024 : ℕ) ≤ roundGrid (ulpExp y) y := le_trans h1 hg
    simp [h1, h2, JSNum.le]
  · by_cases h2 : (2 : ℚ) ^ (1024 : ℕ) ≤ roundGrid (ulpExp y) y
    · simp [h1, h2, JSNum.le]
    · simp [h1, h2, JSNum.le, hg]

theorem roundMag_zero : roundMag 0 = JSNum.fin 0 := by
  have := roundMag_grid 0 0 le_rfl (by norm_num) (by norm_num) (by norm_num)
  simpa using this

theorem roundMag_nonneg (x : ℚ) (hx : 0 ≤ x) :
    roundMag x = JSNum.pinf ∨ ∃ v : ℚ, 0 ≤ v ∧ roundMag x = JSNum.fin v := by
  unfold roundMag
  by_cases h1 : (2 : ℚ) ^ (1024 : ℕ) ≤ roundGrid (ulpExp x) x
  · left; simp [h1]
  · right
    exact ⟨roundGrid (ulpExp x) x, roundGrid_nonneg _ _ hx, by simp [h1]⟩

theorem neg_le_neg_num (a b : JSNum) (h : JSNum.le a b = true) :
    JSNum.le b.neg a.neg = true := by
  cases a <;> cases b <;> simp_all [JSNum.le, JSNum.neg]

theorem roundDouble_zero : roundDouble 0 = JSNum.fin 0 := by
  simp [roundDouble, roundMag_zero]

theorem roundDouble_mono (x y : ℚ) (h : x ≤ y) :
    JSNum.le (roundDouble x) (roundDouble y) = true := by
  unfold roundDouble
  by_cases hx : x < 0
  · by_cases hy : y < 0
    · simp only [hx, hy, if_true]
      exact neg_le_neg_num _ _ (roundMag_mono (-y) (-x) (by linarith) (by linarith))
    · simp only [hx, hy, if_true, if_false]
      rcases roundMag_nonneg (-x) (by linarith) with h1 | ⟨v, hv, h1⟩ <;>
        rcases roundMag_nonneg y (by linarith) with h2 | ⟨w, hw, h2⟩ <;>
        rw [h1, h2] <;> simp [JSNum.neg, JSNum.le]
      linarith
  · have hy : ¬ y < 0 := by linarith
    simp only [hx, hy, if_false]
    exact roundMag_mono x y (by linarith) h

theorem two_zpow_53 : (2 : ℚ) ^ (53 : ℤ) = (2 : ℚ) ^ (53 : ℕ) := by norm_num

theorem roundMag_idem (x v : ℚ) (hx : 0 ≤ x) (h : roundMag x = JSNum.fin v) :
    0 ≤ v ∧ roundMag v = JSNum.fin v := by
  unfold roundMag at h
  by_cases h1 : (2 : ℚ) ^ (1024 : ℕ) ≤ roundGrid (ulpExp x) x
  · simp [h1] at h
  · simp only [h1, if_false, JSNum.fin.injEq] at h
    have hv0 : 0 ≤ v := by rw [← h]; exact roundGrid_nonneg _ _ hx
    refine ⟨hv0, ?_⟩
    have hp := two_zpow_pos (ulpExp x)
    have hn0 : 0 ≤ roundHalfEven (x / 2 ^ ulpExp x) :=
      roundHalfEven_nonneg _ (div_nonneg hx (le_of_lt hp))
    have hn1 : roundHalfEven (x / 2 ^ ulpExp x) ≤ (2 : ℤ) ^ (53 : ℕ) := by
      have hlt : x / 2 ^ ulpExp x ≤ (((2 : ℤ) ^ (53 : ℕ) : ℤ) : ℚ) := by
        rw [div_le_iff₀ hp]
        have := lt_zpow_ulpExp x
        rw [add_comm, zpow_add₀ (by norm_num : (2 : ℚ) ≠ 0), two_zpow_53] at this
        push_cast
        exact le_of_lt this
      have := roundHalfEven_mono _ _ hlt
      rwa [roundHalfEven_intCast] at this
    have hvdef : v = (roundHalfEven (x / 2 ^ ulpExp x) : ℚ) * 2 ^ ulpExp x := by
      rw [← h]; rfl
    have hv1024 : v < (2 : ℚ) ^ (1024 : ℕ) := by rw [← h]; exact not_le.mp h1
    rcases lt_or_eq_of_le hn1 with hlt | heq
    · rw [hvdef]
      apply roundMag_grid _ _ hn0 (ulpExp_ge x)
      · have hc : (roundHalfEven (x / 2 ^ ulpExp x) : ℚ) < (2 : ℚ) ^ (53 : ℕ) := by
          exact_mod_cast hlt
        rw [zpow_add₀ (by norm_num : (2 : ℚ) ≠ 0), mul_comm ((2 : ℚ) ^ ulpExp x), two_zpow_53]
        exact mul_lt_mul_of_pos_right hc hp
      · rw [← hvdef]; exact hv1024
    · have hv2 : v = (((2 : ℤ) ^ (52 : ℕ) : ℤ) : ℚ) * 2 ^ (ulpExp x + 1) := by
        rw [hvdef, heq, zpow_add₀ (by norm_num : (2 : ℚ) ≠ 0)]
        push_cast
        ring
      rw [hv2]
      apply roundMag_grid _ _ (by positivity) (by have := ulpExp_ge x; omega)
      · rw [zpow_add₀ (by norm_num : (2 : ℚ) ≠ 0) (ulpExp x + 1) 53,
          mul_comm ((2 : ℚ) ^ (ulpExp x + 1)), two_zpow_53]
        exact mul_lt_mul_of_pos_right (by norm_num) (two_zpow_pos _)
      · rw [← hv2]; exact hv1024

theorem roundDouble_idem (x v : ℚ) (h : roundDouble x = JSNum.fin v) :
    roundDouble v = JSNum.fin v := by
  unfold roundDouble at h
  by_cases hx : x < 0
  · simp only [hx, if_true] at h
    cases hm : roundMag (-x) with
    | nan => rw [hm] at h; simp [JSNum.neg] at h
    | ninf => rw [hm] at h; simp [JSNum.neg] at h
    | pinf => rw [hm] at h; simp [JSNum.neg] at h
    | fin w =>
      rw [hm] at h
      simp only [JSNum.neg, JSNum.fin.injEq] at h
      have hw := roundMag_idem (-x) w (by linarith) hm
      unfold roundDouble
      rcases eq_or_lt_of_le hw.1 with h0 | hpos
      · have hv0 : v = 0 := by rw [← h, ← h0]; simp
        rw [hv0]; simp [roundMag_zero]
      · have hvneg : v < 0 := by rw [← h]; linarith
        have hnv : -v = w := by rw [← h]; simp
        simp only [hvneg, if_true, hnv, hw.2, JSNum.neg, h]
  · simp only [hx, if_false] at h
    have hw := roundMag_idem x v (by linarith) h
    unfold roundDouble
    simp [not_lt.mpr hw.1, hw.2]

theorem roundDouble_grid (m e : ℤ) (he : -1074 ≤ e)
    (h1 : |(m : ℚ)| < 2 ^ (53 : ℕ)) (h2 : |(m : ℚ)| * 2 ^ e < 2 ^ (1024 : ℕ)) :
    roundDouble ((m : ℚ) * 2 ^ e) = JSNum.fin ((m : ℚ) * 2 ^ e) := by
  have hp := two_zpow_pos e
  have hgrid : ∀ k : ℤ, 0 ≤ k → (k : ℚ) = |(m : ℚ)| →
      roundMag ((k : ℚ) * 2 ^ e) = JSNum.fin ((k : ℚ) * 2 ^ e) := by
    intro k hk hkm
    apply roundMag_grid k e hk he
    · rw [zpow_add₀ (by norm_num : (2 : ℚ) ≠ 0), mul_comm ((2 : ℚ) ^ e), hkm, two_zpow_53]
      exact mul_lt_mul_of_pos_right h1 hp
    · rw [hkm]; exact h2
  unfold roundDouble
  by_cases hm : (m : ℚ) < 0
  · have hx : (m : ℚ) * 2 ^ e < 0 := mul_neg_of_neg_of_pos hm hp
    have hk := hgrid (-m) (by have : m < 0 := by exact_mod_cast hm
                              omega) (by push_cast; rw [abs_of_neg hm])
    simp only [hx, if_true]
    have hneg : -((m : ℚ) * 2 ^ e) = ((-m : ℤ) : ℚ) * 2 ^ e := by push_cast; ring
    rw [hneg, hk]
    simp only [JSNum.neg, JSNum.fin.injEq]
    push_cast
    ring
  · have hm0 : (0 : ℚ) ≤ (m : ℚ) := not_lt.mp hm
    have hx : ¬ ((m : ℚ) * 2 ^ e < 0) := not_lt.mpr (mul_nonneg hm0 (le_of_lt hp))
    simp only [hx, if_false]
    exact hgrid m (by exact_mod_cast hm0) (by rw [abs_of_nonneg hm0])

theorem roundDouble_intCast (n : ℤ) (h : |(n : ℚ)| < 2 ^ (53 : ℕ)) :
    roundDouble (n : ℚ) = JSNum.fin (n : ℚ) := by
  have := roundDouble_grid n 0 (by norm_num) h (by
    simp only [zpow_zero, mul_one]
    exact lt_trans h (by norm_num))
  simpa using this




theorem ulpExp_eq (x : ℚ) (k : ℤ) (h1 : (2 : ℚ) ^ k ≤ x) (h2 : x < (2 : ℚ) ^ (k + 1)) :
    ulpExp x = max (k - 52) (-1074) := by
  have hx : 0 < x := lt_of_lt_of_le (two_zpow_pos k) h1
  have ha : k ≤ Int.log 2 x := by
    rw [← Int.zpow_le_iff_le_log (by norm_num) hx]
    simpa using h1
  have hb : Int.log 2 x < k + 1 := by
    rw [← Int.lt_zpow_iff_log_lt (by norm_num) hx]
    simpa using h2
  have : Int.log 2 x = k := by omega
  unfold ulpExp
  rw [this]

theorem roundMag_eval (x : ℚ) (u n : ℤ) (hu : ulpExp x = u)
    (hn : roundHalfEven (x / 2 ^ u) = n) :
    roundMag x = if (2 : ℚ) ^ (1024 : ℕ) ≤ (n : ℚ) * 2 ^ u then JSNum.pinf
      else JSNum.fin ((n : ℚ) * 2 ^ u) := by
  unfold roundMag roundGrid
  rw [hu, hn]

theorem roundHalfEven_eval (y : ℚ) (f : ℤ) (hf : ⌊y⌋ = f) :
    roundHalfEven y = if y - f < 1 / 2 then f
      else if 1 / 2 < y - f then f + 1 else if f % 2 = 0 then f else f + 1 := by
  unfold roundHalfEven
  rw [hf]

theorem roundDouble_tiny : roundDouble ((2 : ℚ) ^ (-1075 : ℤ)) = JSNum.fin 0 := by
  have hu : ulpExp ((2 : ℚ) ^ (-1075 : ℤ)) = -1074 := by
    rw [ulpExp_eq _ (-1075) le_rfl (zpow_lt_zpow_right₀ (by norm_num) (by norm_num))]
    norm_num
  have hy : (2 : ℚ) ^ (-1075 : ℤ) / 2 ^ (-1074 : ℤ) = 1 / 2 := by
    rw [← zpow_sub₀ (by norm_num : (2 : ℚ) ≠ 0)]
    norm_num
  have hn : roundHalfEven ((2 : ℚ) ^ (-1075 : ℤ) / 2 ^ (-1074 : ℤ)) = 0 := by
    rw [hy, roundHalfEven_eval (1 / 2) 0 (by rw [Int.floor_eq_iff]; norm_num)]
    norm_num
  have hpos : ¬ ((2 : ℚ) ^ (-1075 : ℤ) < 0) := not_lt.mpr (le_of_lt (two_zpow_pos _))
  unfold roundDouble
  rw [if_neg hpos, roundMag_eval _ _ _ hu hn]
  norm_num

theorem roundDouble_underflow (x : ℚ) (h0 : 0 ≤ x) (h : x ≤ (2 : ℚ) ^ (-1075 : ℤ)) :
    roundDouble x = JSNum.fin 0 := by
  have h1 := roundDouble_mono 0 x h0
  have h2 := roundDouble_mono x _ h
  rw [roundDouble_zero] at h1
  rw [roundDouble_tiny] at h2
  cases hr : roundDouble x with
  | nan => rw [hr] at h1; simp [JSNum.le] at h1
  | ninf => rw [hr] at h1; simp [JSNum.le] at h1
  | pinf => rw [hr] at h2; simp [JSNum.le] at h2
  | fin v =>
    rw [hr] at h1 h2
    simp only [JSNum.le, decide_eq_true_eq] at h1 h2
    rw [le_antisymm h2 h1]

theorem roundDouble_huge : roundDouble ((2 : ℚ) ^ (1024 : ℤ)) = JSNum.pinf := by
  have hu : ulpExp ((2 : ℚ) ^ (1024 : ℤ)) = 972 := by
    rw [ulpExp_eq _ 1024 le_rfl (zpow_lt_zpow_right₀ (by norm_num) (by norm_num))]
    norm_num
  have hpos : ¬ ((2 : ℚ) ^ (1024 : ℤ) < 0) := not_lt.mpr (le_of_lt (two_zpow_pos _))
  have hg : roundGrid 972 ((2 : ℚ) ^ (1024 : ℤ)) = (2 : ℚ) ^ (1024 : ℤ) :=
    roundGrid_fix_zpow 972 1024 (by norm_num)
  unfold roundDouble roundMag
  rw [if_neg hpos, hu, hg]
  norm_num

theorem roundDouble_overflow (x : ℚ) (h : (2 : ℚ) ^ (1024 : ℤ) ≤ x) :
    roundDouble x = JSNum.pinf := by
  have h2 := roundDouble_mono _ x h
  rw [roundDouble_huge] at h2
  cases hr : roundDouble x with
  | pinf => rfl
  | nan => rw [hr] at h2; simp [JSNum.le] at h2
  | ninf => rw [hr] at h2; simp [JSNum.le] at h2
  | fin v => rw [hr] at h2; simp [JSNum.le] at h2

theorem roundDouble_1e16_minus_1 :
    roundDouble 9999999999999999 = JSNum.fin 10000000000000000 := by
  have hu : ulpExp 9999999999999999 = 1 := by
    rw [ulpExp_eq _ 53 (by norm_num) (by norm_num)]
    norm_num
  have hn : roundHalfEven ((9999999999999999 : ℚ) / 2 ^ (1 : ℤ)) = 5000000000000000 := by
    rw [roundHalfEven_eval _ 4999999999999999 (by rw [Int.floor_eq_iff]; norm_num)]
    norm_num
  unfold roundDouble
  rw [if_neg (by norm_num), roundMag_eval _ _ _ hu hn]
  norm_num

theorem roundDouble_2p53_plus_1 :
    roundDouble 9007199254740993 = JSNum.fin 9007199254740992 := by
  have hu : ulpExp 9007199254740993 = 1 := by
    rw [ulpExp_eq _ 53 (by norm_num) (by norm_num)]
    norm_num
  have hn : roundHalfEven ((9007199254740993 : ℚ) / 2 ^ (1 : ℤ)) = 4503599627370496 := by
    rw [roundHalfEven_eval _ 4503599627370496 (by rw [Int.floor_eq_iff]; norm_num)]
    norm_num
  unfold roundDouble
  rw [if_neg (by norm_num), roundMag_eval _ _ _ hu hn]
  norm_num

theorem roundDouble_neg (x : ℚ) : roundDouble (-x) = (roundDouble x).neg := by
  unfold roundDouble
  rcases lt_trichotomy x 0 with h | h | h
  · have h1 : ¬ (-x < 0) := by linarith
    simp only [h, h1, if_true, if_false]
    cases roundMag (-x) <;> simp [JSNum.neg]
  · subst h
    simp [roundMag_zero, JSNum.neg]
  · have h1 : -x < 0 := by linarith
    have h2 : ¬ (x < 0) := by linarith
    simp only [h1, h2, if_true, if_false, neg_neg]

theorem roundDouble_nonneg (x : ℚ) (hx : 0 ≤ x) :
    JSNum.le (JSNum.fin 0) (roundDouble x) = true := by
  have := roundDouble_mono 0 x hx
  rwa [roundDouble_zero] at this

theorem round_idem (n : JSNum) (q : ℚ) (h : n.round = JSNum.fin q) :
    roundDouble q = JSNum.fin q := by
  cases n with
  | fin a => exact roundDouble_idem a q h
  | nan => simp [JSNum.round] at h
  | ninf => simp [JSNum.round] at h
  | pinf => simp [JSNum.round] at h

theorem roundDouble_of_neg (q : ℚ) (h : roundDouble (-q) = JSNum.fin (-q)) :
    roundDouble q = JSNum.fin q := by
  have h1 := roundDouble_neg (-q)
  rw [neg_neg, h] at h1
  simpa [JSNum.neg] using h1

theorem value_double (n : NumLit) (q : ℚ) (h : n.value = JSNum.fin q) :
    roundDouble q = JSNum.fin q := by
  cases n with
  | infinity => simp [NumLit.value] at h
  | dec m e => exact roundDouble_idem _ q h

theorem value_neg_double (n : NumLit) (q : ℚ) (h : n.value.neg = JSNum.fin q) :
    roundDouble q = JSNum.fin q := by
  cases hv : n.value with
  | nan => rw [hv] at h; simp [JSNum.neg] at h
  | ninf => rw [hv] at h; simp [JSNum.neg] at h
  | pinf => rw [hv] at h; simp [JSNum.neg] at h
  | fin a =>
    rw [hv] at h
    simp only [JSNum.neg, JSNum.fin.injEq] at h
    have ha := value_double n a hv
    apply roundDouble_of_neg
    rw [← h, neg_neg]
    exact ha

theorem stringToNumber_double (s : String) (q : ℚ) (h : stringToNumber s = JSNum.fin q) :
    roundDouble q = JSNum.fin q := by
  unfold stringToNumber at h
  cases hp : parseNumeric (trimChars s.toList) with
  | none => rw [hp] at h; simp at h
  | some r =>
    obtain ⟨b, n⟩ := r
    rw [hp] at h
    cases b with
    | false => exact value_double n q h
    | true => exact value_neg_double n q h

theorem toNumber_double (v : JSVal) (q : ℚ) (h : v.toNumber = JSNum.fin q) :
    roundDouble q = JSNum.fin q := by
  cases v with
  | undefined => simp [JSVal.toNumber] at h
  | null =>
    simp only [JSVal.toNumber, JSNum.fin.injEq] at h
    rw [← h]; exact roundDouble_zero
  | bool b =>
    cases b
    · simp only [JSVal.toNumber, JSNum.fin.injEq] at h
      simp at h
      rw [← h]; exact roundDouble_zero
    · simp only [JSVal.toNumber, JSNum.fin.injEq] at h
      simp at h
      rw [← h]
      have := roundDouble_intCast 1 (by norm_num)
      simpa using this
  | num n => exact round_idem n q h
  | str s => exact stringToNumber_double s q h
  | object t => exact stringToNumber_double t q h

/-! ## Facts about text -/

theorem stringToNumber_of_parse (s : String) (b : Bool) (n : NumLit)
    (h : parseNumeric (trimChars s.toList) = some (b, n)) :
    stringToNumber s = if b then n.value.neg else n.value := by
  unfold stringToNumber
  rw [h]
  cases b <;> rfl

theorem value_dec_nat (m : Nat) (h : (m : ℚ) < 2 ^ (53 : ℕ)) :
    (NumLit.dec m 0).value = JSNum.fin (m : ℚ) := by
  have h1 := roundDouble_intCast (m : ℤ) (by
    have h0 : (0 : ℚ) ≤ ((m : ℤ) : ℚ) := by positivity
    rw [abs_of_nonneg h0]
    exact_mod_cast h)
  simp only [NumLit.value, scale10]
  norm_num at h1 ⊢
  exact h1

theorem stringToNumber_50 : stringToNumber "50" = JSNum.fin 50 := by
  rw [stringToNumber_of_parse "50" false (NumLit.dec 50 0) (by decide)]
  have := value_dec_nat 50 (by norm_num)
  simpa using this

theorem stringToNumber_25 : stringToNumber "25" = JSNum.fin 25 := by
  rw [stringToNumber_of_parse "25" false (NumLit.dec 25 0) (by decide)]
  have := value_dec_nat 25 (by norm_num)
  simpa using this

theorem stringToNumber_1000 : stringToNumber "1000" = JSNum.fin ((1000 : ℕ) : ℚ) := by
  rw [stringToNumber_of_parse "1000" false (NumLit.dec 1000 0) (by decide)]
  have := value_dec_nat 1000 (by norm_num)
  simpa using this

theorem stringToNumber_400 : stringToNumber "400" = JSNum.fin ((400 : ℕ) : ℚ) := by
  rw [stringToNumber_of_parse "400" false (NumLit.dec 400 0) (by decide)]
  have := value_dec_nat 400 (by norm_num)
  simpa using this

theorem stringToNumber_infinity : stringToNumber "Infinity" = JSNum.pinf := by
  rw [stringToNumber_of_parse "Infinity" false NumLit.infinity (by decide)]
  simp [NumLit.value]

theorem stringToNumber_padded_minus_5 : stringToNumber " -5 " = JSNum.fin (-5) := by
  rw [stringToNumber_of_parse " -5 " true (NumLit.dec 5 0) (by decide)]
  have := value_dec_nat 5 (by norm_num)
  simp only [if_true]
  rw [this]
  simp [JSNum.neg]

theorem stringToNumber_abc : stringToNumber "abc" = JSNum.nan := by
  have h : parseNumeric (trimChars "abc".toList) = none := by decide
  unfold stringToNumber
  rw [h]

theorem two_pow_le_ten_pow (k : ℕ) (hk : k ≤ 1200) : (2 : ℚ) ^ k ≤ (10 : ℚ) ^ (400 : ℕ) := by
  calc (2 : ℚ) ^ k ≤ (2 : ℚ) ^ (3 * 400) := pow_le_pow_right₀ (by norm_num) (by omega)
    _ = ((2 : ℚ) ^ 3) ^ (400 : ℕ) := pow_mul _ _ _
    _ ≤ (10 : ℚ) ^ (400 : ℕ) := pow_le_pow_left₀ (by norm_num) (by norm_num) _

theorem stringToNumber_underflow : stringToNumber "1e-400" = JSNum.fin 0 := by
  rw [stringToNumber_of_parse "1e-400" false (NumLit.dec 1 (-400)) (by decide)]
  have hs : scale10 ((1 : ℕ) : ℚ) (-400) = ((10 : ℚ) ^ (400 : ℕ))⁻¹ := by
    have h1 : ¬ ((0 : ℤ) ≤ -400) := by decide
    have h2 : (-(-400 : ℤ)).toNat = 400 := by decide
    simp only [scale10, h1, if_false, h2, Nat.cast_one, one_div]
  have hz : (2 : ℚ) ^ (-1075 : ℤ) = ((2 : ℚ) ^ (1075 : ℕ))⁻¹ := by
    rw [zpow_neg, zpow_ofNat]
  simp only [NumLit.value, if_false, Bool.false_eq_true]
  rw [hs]
  apply roundDouble_underflow
  · positivity
  · rw [hz]
    exact inv_anti₀ (by positivity) (two_pow_le_ten_pow 1075 (by norm_num))

theorem stringToNumber_overflow : stringToNumber "1e400" = JSNum.pinf := by
  rw [stringToNumber_of_parse "1e400" false (NumLit.dec 1 400) (by decide)]
  have hs : scale10 ((1 : ℕ) : ℚ) 400 = (10 : ℚ) ^ (400 : ℕ) := by
    have h1 : (0 : ℤ) ≤ 400 := by decide
    have h2 : (400 : ℤ).toNat = 400 := by decide
    simp only [scale10, h1, if_true, h2, Nat.cast_one, one_mul]
  have hz : (2 : ℚ) ^ (1024 : ℤ) = (2 : ℚ) ^ (1024 : ℕ) := zpow_ofNat _ _
  simp only [NumLit.value, if_false, Bool.false_eq_true]
  rw [hs]
  apply roundDouble_overflow
  rw [hz]
  exact two_pow_le_ten_pow 1024 (by norm_num)

theorem stringToNumber_2p53_plus_1 :
    stringToNumber "9007199254740993" = JSNum.fin 9007199254740992 := by
  have hp : parseNumeric (trimChars "9007199254740993".toList)
      = some (false, NumLit.dec 9007199254740993 0) := by decide
  rw [stringToNumber_of_parse _ false _ hp]
  have hs : scale10 ((9007199254740993 : ℕ) : ℚ) 0 = 9007199254740993 := by
    simp [scale10]
  simp only [NumLit.value, if_false, Bool.false_eq_true]
  rw [hs]
  exact roundDouble_2p53_plus_1

theorem truthy_eq_false_iff (n : JSNum) :
    n.truthy = false ↔ n = JSNum.fin 0 ∨ n = JSNum.nan := by
  cases n <;> simp [JSNum.truthy]

theorem isoDate_sample :
    String.mk ((toISOString 1730808000000).take 10) = "2024-11-05" := by
  decide

theorem digitChar_isDigit (n : Nat) : (digitChar n).isDigit = true := by
  unfold digitChar
  have h : n % 10 < 10 := Nat.mod_lt _ (by norm_num)
  interval_cases (n % 10) <;> decide

theorem isoDate_shape (t : Int)
    (hy : 0 ≤ (civilFromDays (t / 86400000)).1 ∧ (civilFromDays (t / 86400000)).1 ≤ 9999) :
    (toISOString t).take 10
      = [digitChar ((civilFromDays (t / 86400000)).1.natAbs / 1000),
         digitChar ((civilFromDays (t / 86400000)).1.natAbs / 100),
         digitChar ((civilFromDays (t / 86400000)).1.natAbs / 10),
         digitChar (civilFromDays (t / 86400000)).1.natAbs,
         '-',
         digitChar ((civilFromDays (t / 86400000)).2.1.toNat / 10),
         digitChar (civilFromDays (t / 86400000)).2.1.toNat,
         '-',
         digitChar ((civilFromDays (t / 86400000)).2.2.toNat / 10),
         digitChar (civilFromDays (t / 86400000)).2.2.toNat] := by
  simp [toISOString, isoYear, hy, pad2]

/-! ## Facts about the budget figures -/

theorem mathMin_fin (a b : ℚ) :
    JSNum.mathMin (JSNum.fin a) (JSNum.fin b) = JSNum.fin (min a b) := by
  by_cases h : b < a
  · simp [JSNum.mathMin, JSNum.lt, h, min_eq_right (le_of_lt h)]
  · simp [JSNum.mathMin, JSNum.lt, h, min_eq_left (le_of_not_lt h)]

theorem mathMax_fin (a b : ℚ) :
    JSNum.mathMax (JSNum.fin a) (JSNum.fin b) = JSNum.fin (max a b) := by
  by_cases h : a < b
  · simp [JSNum.mathMax, JSNum.lt, h, max_eq_right (le_of_lt h)]
  · simp [JSNum.mathMax, JSNum.lt, h, max_eq_left (le_of_not_lt h)]

theorem mathMin_hundred_not_above (x : JSNum) :
    JSNum.lt (JSNum.fin 100) (JSNum.mathMin x (JSNum.fin 100)) = false := by
  cases x with
  | nan => simp [JSNum.mathMin, JSNum.lt]
  | ninf => simp [JSNum.mathMin, JSNum.lt]
  | pinf => simp [JSNum.mathMin, JSNum.lt]
  | fin q => simp [mathMin_fin, JSNum.lt]

theorem mathMin_hundred_range (x : JSNum) (h : JSNum.le (JSNum.fin 0) x = true) :
    JSNum.le (JSNum.fin 0) (JSNum.mathMin x (JSNum.fin 100)) = true
      ∧ JSNum.le (JSNum.mathMin x (JSNum.fin 100)) (JSNum.fin 100) = true := by
  cases x with
  | nan => simp [JSNum.le] at h
  | ninf => simp [JSNum.le] at h
  | pinf => simp [JSNum.mathMin, JSNum.lt, JSNum.le]
  | fin q =>
    simp only [JSNum.le, decide_eq_true_eq] at h
    rw [mathMin_fin]
    simp only [JSNum.le, decide_eq_true_eq]
    exact ⟨le_min h (by norm_num), min_le_right _ _⟩

theorem mul_hundred_nonneg (x : JSNum) (h : JSNum.le (JSNum.fin 0) x = true) :
    JSNum.le (JSNum.fin 0) (JSNum.mul x (JSNum.fin 100)) = true := by
  cases x with
  | nan => simp [JSNum.le] at h
  | ninf => simp [JSNum.le] at h
  | pinf => norm_num [JSNum.mul, JSNum.le]
  | fin q =>
    simp only [JSNum.le, decide_eq_true_eq] at h
    simp only [JSNum.mul]
    exact roundDouble_nonneg _ (by positivity)

theorem budgetPercent_not_above (budget spent : JSNum) :
    JSNum.lt (JSNum.fin 100) (budgetPercent budget spent).1 = false := by
  unfold budgetPercent
  split
  · exact mathMin_hundred_not_above _
  · simp [JSNum.lt]

theorem budgetPercent_range (budget spent : JSNum)
    (hb : JSNum.le (JSNum.fin 0) budget = true) (hs : JSNum.le (JSNum.fin 0) spent = true)
    (hfin : ¬ (budget = JSNum.pinf ∧ spent = JSNum.pinf)) :
    JSNum.le (JSNum.fin 0) (budgetPercent budget spent).1 = true
      ∧ JSNum.le (budgetPercent budget spent).1 (JSNum.fin 100) = true := by
  by_cases ht : budget.truthy = true
  · have hdiv : JSNum.le (JSNum.fin 0) (JSNum.div spent budget) = true := by
      cases budget with
      | nan => simp [JSNum.le] at hb
      | ninf => simp [JSNum.le] at hb
      | pinf =>
        cases spent with
        | nan => simp [JSNum.le] at hs
        | ninf => simp [JSNum.le] at hs
        | pinf => simp at hfin
        | fin s => simp [JSNum.div, JSNum.le]
      | fin b =>
        simp only [JSNum.le, decide_eq_true_eq] at hb
        have hb0 : b ≠ 0 := by simpa [JSNum.truthy] using ht
        cases spent with
        | nan => simp [JSNum.le] at hs
        | ninf => simp [JSNum.le] at hs
        | pinf => simp [JSNum.div, hb, JSNum.le]
        | fin s =>
          simp only [JSNum.le, decide_eq_true_eq] at hs
          simp only [JSNum.div, hb0, if_false]
          exact roundDouble_nonneg _ (div_nonneg hs hb)
    have hp : (budgetPercent budget spent).1
        = JSNum.mathMin (JSNum.mul (JSNum.div spent budget) (JSNum.fin 100)) (JSNum.fin 100) := by
      simp [budgetPercent, ht]
    rw [hp]
    exact mathMin_hundred_range _ (mul_hundred_nonneg _ hdiv)
  · have hp : (budgetPercent budget spent).1 = JSNum.fin 0 := by
      simp [budgetPercent, ht]
    rw [hp]
    norm_num [JSNum.le]

theorem budgetPercent_falsy (budget spent : JSNum) (h : budget.truthy = false) :
    budgetPercent budget spent = (JSNum.fin 0, []) := by
  simp [budgetPercent, h]

theorem zero_or_zero_toNumber (v : JSVal) (h : v.truthy = false) :
    (v.or (JSVal.num (JSNum.fin 0))).toNumber = JSNum.fin 0 := by
  simp [JSVal.or, h, JSVal.toNumber, JSNum.round, roundDouble_zero]

theorem budget_of_undefined (data : Fields) (bar : Bool)
    (h : getProp data "budget" = JSVal.undefined) :
    (loadBudgetThen data bar).budget = JSNum.fin 0 := by
  have := zero_or_zero_toNumber (getProp data "budget") (by rw [h]; rfl)
  simpa [loadBudgetThen] using this

theorem coerced_double (v : JSVal) (q : ℚ)
    (h : (v.or (JSVal.num (JSNum.fin 0))).toNumber = JSNum.fin q) :
    roundDouble q = JSNum.fin q :=
  toNumber_double _ q h

theorem num_toNumber_fixed (q : ℚ) (h : roundDouble q = JSNum.fin q) (hq : q ≠ 0) :
    ((JSVal.num (JSNum.fin q)).or (JSVal.num (JSNum.fin 0))).toNumber = JSNum.fin q := by
  simp [JSVal.or, JSVal.truthy, JSVal.toNumber, JSNum.round, h, JSNum.truthy, hq]

theorem num_toNumber_int (n : ℤ) (h : |(n : ℚ)| < 2 ^ (53 : ℕ)) (hn : n ≠ 0) :
    ((JSVal.num (JSNum.fin (n : ℚ))).or (JSVal.num (JSNum.fin 0))).toNumber
      = JSNum.fin (n : ℚ) :=
  num_toNumber_fixed _ (roundDouble_intCast n h) (by exact_mod_cast hn)

theorem remaining_bounds (b s : ℚ) (hb : 0 ≤ b) (hs : 0 ≤ s)
    (hdb : roundDouble b = JSNum.fin b) (hds : roundDouble s = JSNum.fin s) :
    ∃ d : ℚ, roundDouble (b - s) = JSNum.fin d ∧ d ≤ b
      ∧ JSNum.mathMax (JSNum.sub (JSNum.fin b) (JSNum.fin s)) (JSNum.fin 0)
          = JSNum.fin (max d 0) := by
  have h1 := roundDouble_mono (b - s) b (by linarith)
  have h2 := roundDouble_mono (-s) (b - s) (by linarith)
  rw [hdb] at h1
  rw [roundDouble_neg, hds] at h2
  cases hr : roundDouble (b - s) with
  | nan => rw [hr] at h1; simp [JSNum.le] at h1
  | ninf => rw [hr] at h2; simp [JSNum.le, JSNum.neg] at h2
  | pinf => rw [hr] at h1; simp [JSNum.le] at h1
  | fin d =>
    rw [hr] at h1
    simp only [JSNum.le, decide_eq_true_eq] at h1
    exact ⟨d, rfl, h1, by simp only [JSNum.sub, hr, mathMax_fin]⟩

theorem div_fin (a b : ℚ) (hb : b ≠ 0) :
    JSNum.div (JSNum.fin a) (JSNum.fin b) = roundDouble (a / b) := by
  simp [JSNum.div, hb]

theorem mul_fin (a b : ℚ) : JSNum.mul (JSNum.fin a) (JSNum.fin b) = roundDouble (a * b) := rfl

theorem sub_fin (a b : ℚ) : JSNum.sub (JSNum.fin a) (JSNum.fin b) = roundDouble (a - b) := rfl

theorem budgetPercent_truthy (budget spent : JSNum) (h : budget.truthy = true) :
    (budgetPercent budget spent).1
      = JSNum.mathMin (JSNum.mul (JSNum.div spent budget) (JSNum.fin 100)) (JSNum.fin 100) := by
  simp [budgetPercent, h]

theorem roundDouble_neg_half : roundDouble (-1 / 2) = JSNum.fin (-1 / 2) := by
  have := roundDouble_grid (-1) (-1) (by norm_num) (by norm_num) (by norm_num)
  norm_num at this ⊢
  exact this

theorem roundDouble_ofInt (n : ℤ) (q : ℚ) (hq : q = (n : ℚ)) (h : |(n : ℚ)| < 2 ^ (53 : ℕ)) :
    roundDouble q = JSNum.fin q := by
  rw [hq]; exact roundDouble_intCast n h

theorem loadBudgetThen_percent (data : Fields) (bar : Bool) :
    (loadBudgetThen data bar).percent
      = (budgetPercent ((getProp data "budget").or (JSVal.num (JSNum.fin 0))).toNumber
          ((getProp data "spent").or (JSVal.num (JSNum.fin 0))).toNumber).1 := rfl

theorem loadBudgetThen_remaining (data : Fields) (bar : Bool) :
    (loadBudgetThen data bar).remaining
      = JSNum.mathMax (JSNum.sub ((getProp data "budget").or (JSVal.num (JSNum.fin 0))).toNumber
          ((getProp data "spent").or (JSVal.num (JSNum.fin 0))).toNumber) (JSNum.fin 0) := rfl

theorem budget_sample_eval :
    (loadBudgetThen [("budget", JSVal.num (JSNum.fin 200)),
      ("spent", JSVal.num (JSNum.fin 50))] true).budget = JSNum.fin 200
    ∧ (loadBudgetThen [("budget", JSVal.num (JSNum.fin 200)),
      ("spent", JSVal.num (JSNum.fin 50))] true).spent = JSNum.fin 50 := by
  have h200 := num_toNumber_int 200 (by norm_num) (by norm_num)
  have h50 := num_toNumber_int 50 (by norm_num) (by norm_num)
  norm_num at h200 h50
  constructor
  · simpa [loadBudgetThen, getProp] using h200
  · simpa [loadBudgetThen, getProp] using h50

/-! ## The budget: C1 to C4 -/

/-- C1, as stated, fails: for the response with budget 100 and spent -50 the
percent of `loadBudget` is -50, and `0 <= percent` is false. -/
theorem percent_negative_counterexample :
    (loadBudgetThen [("budget", JSVal.num (JSNum.fin 100)),
        ("spent", JSVal.num (JSNum.fin (-50)))] true).percent = JSNum.fin (-50)
      ∧ JSNum.le (JSNum.fin 0) (loadBudgetThen [("budget", JSVal.num (JSNum.fin 100)),
        ("spent", JSVal.num (JSNum.fin (-50)))] true).percent = false := by
  have h100 := num_toNumber_int 100 (by norm_num) (by norm_num)
  have h50 := num_toNumber_int (-50) (by norm_num) (by norm_num)
  norm_num at h100 h50
  have hd : roundDouble (-50 / 100) = JSNum.fin (-1 / 2) := by
    have := roundDouble_neg_half
    norm_num at this ⊢
    exact this
  have hm : roundDouble (-1 / 2 * 100) = JSNum.fin (-50) := by
    have := roundDouble_ofInt (-50) (-1 / 2 * 100) (by norm_num) (by norm_num)
    norm_num at this ⊢
    exact this
  have hmin : min (-50 : ℚ) 100 = -50 := by norm_num
  have g1 : getProp [("budget", JSVal.num (JSNum.fin 100)),
      ("spent", JSVal.num (JSNum.fin (-50)))] "budget" = JSVal.num (JSNum.fin 100) := by
    simp [getProp]
  have g2 : getProp [("budget", JSVal.num (JSNum.fin 100)),
      ("spent", JSVal.num (JSNum.fin (-50)))] "spent" = JSVal.num (JSNum.fin (-50)) := by
    simp [getProp]
  have h : (loadBudgetThen [("budget", JSVal.num (JSNum.fin 100)),
      ("spent", JSVal.num (JSNum.fin (-50)))] true).percent = JSNum.fin (-50) := by
    rw [loadBudgetThen_percent, g1, g2, h100, h50, budgetPercent_truthy _ _ (by norm_num [JSNum.truthy]),
      div_fin _ _ (by norm_num), hd, mul_fin, hm, mathMin_fin, hmin]
  rw [h]
  exact ⟨rfl, by simp [JSNum.le]⟩

/-- C1, amended: for every budget-status response the percent of `loadBudget`
never exceeds 100, and when the coerced budget and spent are both at least 0
and not both infinite, `0 <= percent <= 100`. -/
theorem percent_bounds (data : Fields) (bar : Bool) :
    JSNum.lt (JSNum.fin 100) (loadBudgetThen data bar).percent = false
      ∧ (JSNum.le (JSNum.fin 0) (loadBudgetThen data bar).budget = true →
         JSNum.le (JSNum.fin 0) (loadBudgetThen data bar).spent = true →
         ¬ ((loadBudgetThen data bar).budget = JSNum.pinf
              ∧ (loadBudgetThen data bar).spent = JSNum.pinf) →
         JSNum.le (JSNum.fin 0) (loadBudgetThen data bar).percent = true
           ∧ JSNum.le (loadBudgetThen data bar).percent (JSNum.fin 100) = true) :=
  ⟨budgetPercent_not_above _ _, fun hb hs hfin => budgetPercent_range _ _ hb hs hfin⟩

/-- At budget 200 and spent 50 the hypotheses of `percent_bounds` hold and the
percent lies between 0 and 100. -/
theorem percent_bounds_witness :
    JSNum.le (JSNum.fin 0) (loadBudgetThen [("budget", JSVal.num (JSNum.fin 200)),
        ("spent", JSVal.num (JSNum.fin 50))] true).percent = true
      ∧ JSNum.le (loadBudgetThen [("budget", JSVal.num (JSNum.fin 200)),
        ("spent", JSVal.num (JSNum.fin 50))] true).percent (JSNum.fin 100) = true :=
  (percent_bounds [("budget", JSVal.num (JSNum.fin 200)),
      ("spent", JSVal.num (JSNum.fin 50))] true).2
    (by rw [budget_sample_eval.1]; simp [JSNum.le])
    (by rw [budget_sample_eval.2]; simp [JSNum.le])
    (by rw [budget_sample_eval.1]; simp)

/-- C3, as stated, fails.  For the response with budget 10000000000000000 and
spent 1 the remaining amount of `loadBudget` is 10000000000000000, because the
difference is rounded to a double, while `max(budget - spent, 0)` is
9999999999999999.  For the response whose budget and spent are both the text
`Infinity` the remaining amount is `NaN`. -/
theorem remaining_counterexample :
    (loadBudgetThen [("budget", JSVal.num (JSNum.fin 10000000000000000)),
        ("spent", JSVal.num (JSNum.fin 1))] true).remaining = JSNum.fin 10000000000000000
      ∧ remainingSpec 10000000000000000 1 = 9999999999999999
      ∧ (loadBudgetThen [("budget", JSVal.str "Infinity"),
        ("spent", JSVal.str "Infinity")] true).remaining = JSNum.nan := by
  refine ⟨?_, by norm_num [remainingSpec], ?_⟩
  · have g1 : getProp [("budget", JSVal.num (JSNum.fin 10000000000000000)),
        ("spent", JSVal.num (JSNum.fin 1))] "budget"
          = JSVal.num (JSNum.fin 10000000000000000) := by simp [getProp]
    have g2 : getProp [("budget", JSVal.num (JSNum.fin 10000000000000000)),
        ("spent", JSVal.num (JSNum.fin 1))] "spent" = JSVal.num (JSNum.fin 1) := by
      simp [getProp]
    have hbig : roundDouble 10000000000000000 = JSNum.fin 10000000000000000 := by
      have := roundDouble_grid 152587890625 16 (by norm_num) (by norm_num) (by norm_num)
      norm_num at this ⊢
      exact this
    have hone : roundDouble 1 = JSNum.fin 1 := by
      have := roundDouble_intCast 1 (by norm_num)
      simpa using this
    have hsub : (10000000000000000 : ℚ) - 1 = 9999999999999999 := by norm_num
    have hmax : max (10000000000000000 : ℚ) 0 = 10000000000000000 := by norm_num
    rw [loadBudgetThen_remaining, g1, g2, num_toNumber_fixed _ hbig (by norm_num),
      num_toNumber_fixed _ hone (by norm_num), sub_fin, hsub, roundDouble_1e16_minus_1,
      mathMax_fin, hmax]
  · have g1 : getProp [("budget", JSVal.str "Infinity"), ("spent", JSVal.str "Infinity")]
        "budget" = JSVal.str "Infinity" := by decide
    have g2 : getProp [("budget", JSVal.str "Infinity"), ("spent", JSVal.str "Infinity")]
        "spent" = JSVal.str "Infinity" := by decide
    have hinf : ((JSVal.str "Infinity").or (JSVal.num (JSNum.fin 0))).toNumber = JSNum.pinf := by
      simp [JSVal.or, JSVal.truthy, JSVal.toNumber, stringToNumber_infinity]
    rw [loadBudgetThen_remaining, g1, g2, hinf]
    rfl

/-- C3, amended: for every response whose coerced budget and spent are at
least 0 and not both infinite, the remaining amount of `loadBudget` satisfies
`0 <= remaining <= budget`.  For finite budget `b` and spent `s` it is
`max d 0`, where `d` is `b - s` rounded to the nearest double, so it is
`max (b - s) 0` whenever `b - s` is itself a double; it is `Infinity` when
only the budget is infinite and 0 when only spent is. -/
theorem remaining_clamped (data : Fields) (bar : Bool) (budget spent : JSNum)
    (hB : ((getProp data "budget").or (JSVal.num (JSNum.fin 0))).toNumber = budget)
    (hS : ((getProp data "spent").or (JSVal.num (JSNum.fin 0))).toNumber = spent)
    (hb : JSNum.le (JSNum.fin 0) budget = true) (hs : JSNum.le (JSNum.fin 0) spent = true)
    (hfin : ¬ (budget = JSNum.pinf ∧ spent = JSNum.pinf)) :
    JSNum.le (JSNum.fin 0) (loadBudgetThen data bar).remaining = true
      ∧ JSNum.le (loadBudgetThen data bar).remaining budget = true
      ∧ (∀ b s : ℚ, budget = JSNum.fin b → spent = JSNum.fin s →
          ∃ d : ℚ, roundDouble (b - s) = JSNum.fin d
            ∧ (loadBudgetThen data bar).remaining = JSNum.fin (max d 0)
            ∧ (d = b - s → (loadBudgetThen data bar).remaining = JSNum.fin (remainingSpec b s)))
      ∧ (budget = JSNum.pinf → (loadBudgetThen data bar).remaining = JSNum.pinf)
      ∧ (spent = JSNum.pinf → (loadBudgetThen data bar).remaining = JSNum.fin 0) := by
  rw [loadBudgetThen_remaining, hB, hS]
  cases budget with
  | nan => simp [JSNum.le] at hb
  | ninf => simp [JSNum.le] at hb
  | pinf =>
    cases spent with
    | nan => simp [JSNum.le] at hs
    | ninf => simp [JSNum.le] at hs
    | pinf => simp at hfin
    | fin s => simp [JSNum.sub, JSNum.mathMax, JSNum.lt, JSNum.le]
  | fin b =>
    have hdb := coerced_double _ b hB
    simp only [JSNum.le, decide_eq_true_eq] at hb
    cases spent with
    | nan => simp [JSNum.le] at hs
    | ninf => simp [JSNum.le] at hs
    | pinf => simp [JSNum.sub, JSNum.mathMax, JSNum.lt, JSNum.le, hb]
    | fin s =>
      have hds := coerced_double _ s hS
      simp only [JSNum.le, decide_eq_true_eq] at hs
      obtain ⟨d, hd, hdb2, hmax⟩ := remaining_bounds b s hb hs hdb hds
      rw [hmax]
      refine ⟨by simp [JSNum.le], by simp [JSNum.le, hdb2, hb], ?_, by simp, by simp⟩
      intro b1 s1 hb1 hs1
      simp only [JSNum.fin.injEq] at hb1 hs1
      subst hb1 hs1
      exact ⟨d, hd, rfl, fun hdeq => by rw [hdeq, remainingSpec]⟩

/-- At budget 200 and spent 50 the hypotheses of `remaining_clamped` hold and
the remaining amount is 150. -/
theorem remaining_clamped_witness :
    (loadBudgetThen [("budget", JSVal.num (JSNum.fin 200)),
        ("spent", JSVal.num (JSNum.fin 50))] true).remaining = JSNum.fin 150 := by
  have h150 : roundDouble (200 - 50) = JSNum.fin 150 := by
    have := roundDouble_ofInt 150 (200 - 50) (by norm_num) (by norm_num)
    norm_num at this ⊢
    exact this
  obtain ⟨d, hd, hr, _⟩ := (remaining_clamped [("budget", JSVal.num (JSNum.fin 200)),
      ("spent", JSVal.num (JSNum.fin 50))] true (JSNum.fin 200) (JSNum.fin 50)
    budget_sample_eval.1 budget_sample_eval.2
    (by simp [JSNum.le]) (by simp [JSNum.le]) (by simp)).2.2.1 200 50 rfl rfl
  rw [h150] at hd
  simp only [JSNum.fin.injEq] at hd
  rw [hr, ← hd]
  norm_num

/-- C2: the class `loadBudget` gives the progress bar is `progress-bar`
followed by a style that is a function of the percent alone; for every percent
`p` with `0 <= p <= 100` the style is `bg-success` if `p < 70`, `bg-warning`
if `70 <= p < 90` and `bg-danger` if `p >= 90`, so 70 gives `bg-warning` and 90
gives `bg-danger`. -/
theorem style_thresholds (p : JSNum)
    (h0 : JSNum.le (JSNum.fin 0) p = true) (h100 : JSNum.le p (JSNum.fin 100) = true) :
    (∀ data : Fields, (loadBudgetThen data true).update.map BarUpdate.className
        = some ("progress-bar " ++ budgetStyle (loadBudgetThen data true).percent))
      ∧ (JSNum.lt p (JSNum.fin 70) = true → budgetStyle p = "bg-success")
      ∧ (JSNum.le (JSNum.fin 70) p = true → JSNum.lt p (JSNum.fin 90) = true →
          budgetStyle p = "bg-warning")
      ∧ (JSNum.le (JSNum.fin 90) p = true → budgetStyle p = "bg-danger")
      ∧ (JSNum.lt p (JSNum.fin 70) = true
          ∨ (JSNum.le (JSNum.fin 70) p = true ∧ JSNum.lt p (JSNum.fin 90) = true)
          ∨ JSNum.le (JSNum.fin 90) p = true)
      ∧ budgetStyle (JSNum.fin 70) = "bg-warning"
      ∧ budgetStyle (JSNum.fin 90) = "bg-danger" := by
  cases p with
  | nan => simp [JSNum.le] at h0
  | ninf => simp [JSNum.le] at h0
  | pinf => simp [JSNum.le] at h100
  | fin q =>
    refine ⟨fun data => by simp [loadBudgetThen], ?_, ?_, ?_, ?_, ?_, ?_⟩
    · intro h
      simp [budgetStyle, h]
    · intro h1 h2
      simp only [JSNum.le, JSNum.lt, decide_eq_true_eq] at h1 h2
      have h3 : ¬ q < 70 := not_lt.mpr h1
      simp [budgetStyle, JSNum.lt, h3, h2]
    · intro h1
      simp only [JSNum.le, decide_eq_true_eq] at h1
      have h3 : ¬ q < 70 := not_lt.mpr (le_trans (by norm_num) h1)
      have h4 : ¬ q < 90 := not_lt.mpr h1
      simp [budgetStyle, JSNum.lt, h3, h4]
    · simp only [JSNum.le, JSNum.lt, decide_eq_true_eq]
      by_cases h1 : q < 70
      · exact Or.inl h1
      · by_cases h2 : q < 90
        · exact Or.inr (Or.inl ⟨not_lt.mp h1, h2⟩)
        · exact Or.inr (Or.inr (not_lt.mp h2))
    · norm_num [budgetStyle, JSNum.lt]
    · norm_num [budgetStyle, JSNum.lt]

/-- At percent 75 the hypotheses of `style_thresholds` hold and the style is
`bg-warning`. -/
theorem style_thresholds_witness : budgetStyle (JSNum.fin 75) = "bg-warning" :=
  (style_thresholds (JSNum.fin 75) (by simp [JSNum.le]) (by norm_num [JSNum.le])).2.2.1
    (by norm_num [JSNum.le]) (by norm_num [JSNum.lt])


/-- C4: when the coerced budget is 0, and in particular when the response has
no `budget` field, `loadBudget` computes the percent 0 whatever `spent` is and
evaluates no division; in every case a division it evaluates has a truthy
(non-zero, non-NaN) divisor. -/
theorem percent_zero_budget (data : Fields) (bar : Bool) :
    ((loadBudgetThen data bar).budget = JSNum.fin 0 →
        (loadBudgetThen data bar).percent = JSNum.fin 0
          ∧ (loadBudgetThen data bar).divisions = [])
      ∧ (getProp data "budget" = JSVal.undefined →
        (loadBudgetThen data bar).budget = JSNum.fin 0
          ∧ (loadBudgetThen data bar).percent = JSNum.fin 0
          ∧ (loadBudgetThen data bar).divisions = [])
      ∧ (∀ d, d ∈ (loadBudgetThen data bar).divisions →
          d = ((loadBudgetThen data bar).spent, (loadBudgetThen data bar).budget)
            ∧ d.2.truthy = true) := by
  have key : ∀ budget spent : JSNum, budget = JSNum.fin 0 →
      (budgetPercent budget spent).1 = JSNum.fin 0 ∧ (budgetPercent budget spent).2 = [] := by
    intro budget spent h
    rw [budgetPercent_falsy budget spent (by rw [h]; simp [JSNum.truthy])]
    exact ⟨rfl, rfl⟩
  refine ⟨fun h => key _ _ h, fun h => ?_, ?_⟩
  · have hb := budget_of_undefined data bar h
    exact ⟨hb, key _ _ hb⟩
  · intro d hd
    have hdef : (loadBudgetThen data bar).divisions
        = (budgetPercent (loadBudgetThen data bar).budget (loadBudgetThen data bar).spent).2 :=
      rfl
    rw [hdef] at hd
    unfold budgetPercent at hd
    by_cases ht : (loadBudgetThen data bar).budget.truthy = true
    · simp only [ht, if_true, List.mem_singleton] at hd
      exact ⟨hd, by rw [hd]; exact ht⟩
    · simp [ht] at hd

/-- For the response with spent 50 and no budget field the hypothesis of
`percent_zero_budget` holds: the percent is 0 and no division is evaluated. -/
theorem percent_zero_budget_witness :
    (loadBudgetThen [("spent", JSVal.num (JSNum.fin 50))] true).budget = JSNum.fin 0
      ∧ (loadBudgetThen [("spent", JSVal.num (JSNum.fin 50))] true).percent = JSNum.fin 0
      ∧ (loadBudgetThen [("spent", JSVal.num (JSNum.fin 50))] true).divisions = [] :=
  (percent_zero_budget [("spent", JSVal.num (JSNum.fin 50))] true).2.1
    (by simp [getProp])


/-! ## Expenses: C5 and C6 -/

theorem addExpense_blocked (p : Page) (now : Int)
    (h : p.expDesc = "" ∨ (stringToNumber p.expAmount).truthy = false) :
    addExpense p now = [Effect.alert "Please enter description and amount"] := by
  simp only [addExpense, h, if_true]

theorem addExpense_posted (p : Page) (now : Int)
    (h : ¬ (p.expDesc = "" ∨ (stringToNumber p.expAmount).truthy = false)) :
    addExpense p now = [Effect.fetch
        (Request.mk "POST" (p.origin ++ "/expenses") (authHeaders p.token)
          (some [("description", JsonScalar.str p.expDesc),
             ("category", JsonScalar.str p.expCategory),
             ("amount", jsonOfNumber (stringToNumber p.expAmount)),
             ("date", JsonScalar.str (String.mk ((toISOString now).take 10)))]))] := by
  simp only [addExpense, h, if_false]

/-- C5: `addExpense` shows the alert and issues no network request if and only
if the description is empty or the amount input coerces to 0 or `NaN`; in
every other case, negative amounts included, it issues exactly one request, a
POST to `/expenses`, and what it does with the outcome issues no further
POST.  With the description `Taxi`, the amount texts `1e-400` (which
underflows to 0) and `abc` are blocked, and the padded text ` -5 ` is posted
with the amount -5. -/
theorem addExpense_guard (p : Page) (now : Int) :
    ((p.expDesc = "" ∨ stringToNumber p.expAmount = JSNum.fin 0
          ∨ stringToNumber p.expAmount = JSNum.nan)
        ↔ addExpense p now = [Effect.alert "Please enter description and amount"])
      ∧ ((p.expDesc = "" ∨ stringToNumber p.expAmount = JSNum.fin 0
          ∨ stringToNumber p.expAmount = JSNum.nan)
        ↔ ∀ r, Effect.fetch r ∉ addExpense p now)
      ∧ (¬ (p.expDesc = "" ∨ stringToNumber p.expAmount = JSNum.fin 0
          ∨ stringToNumber p.expAmount = JSNum.nan)
        → ∃ r, addExpense p now = [Effect.fetch r] ∧ r.method = "POST"
            ∧ r.url = p.origin ++ "/expenses")
      ∧ (∀ o r, Effect.fetch r ∈ addExpenseThen p o → r.method = "GET")
      ∧ addExpense { p with expDesc := "Taxi", expAmount := "1e-400" } now
          = [Effect.alert "Please enter description and amount"]
      ∧ addExpense { p with expDesc := "Taxi", expAmount := "abc" } now
          = [Effect.alert "Please enter description and amount"]
      ∧ addExpense { p with expDesc := "Taxi", expAmount := " -5 " } now
          = [Effect.fetch (Request.mk "POST" (p.origin ++ "/expenses") (authHeaders p.token)
              (some [("description", JsonScalar.str "Taxi"),
                ("category", JsonScalar.str p.expCategory),
                ("amount", JsonScalar.num (-5)),
                ("date", JsonScalar.str (String.mk ((toISOString now).take 10)))]))] := by
  have hc1 : addExpense { p with expDesc := "Taxi", expAmount := "1e-400" } now
      = [Effect.alert "Please enter description and amount"] := by
    apply addExpense_blocked
    right
    show (stringToNumber "1e-400").truthy = false
    rw [stringToNumber_underflow]
    simp [JSNum.truthy]
  have hc2 : addExpense { p with expDesc := "Taxi", expAmount := "abc" } now
      = [Effect.alert "Please enter description and amount"] := by
    simp [addExpense, stringToNumber_abc, JSNum.truthy]
  have hc3 : addExpense { p with expDesc := "Taxi", expAmount := " -5 " } now
      = [Effect.fetch (Request.mk "POST" (p.origin ++ "/expenses") (authHeaders p.token)
          (some [("description", JsonScalar.str "Taxi"),
            ("category", JsonScalar.str p.expCategory),
            ("amount", JsonScalar.num (-5)),
            ("date", JsonScalar.str (String.mk ((toISOString now).take 10)))]))] := by
    simp [addExpense, stringToNumber_padded_minus_5, JSNum.truthy, jsonOfNumber]
  have hg : (p.expDesc = "" ∨ (stringToNumber p.expAmount).truthy = false)
      ↔ (p.expDesc = "" ∨ stringToNumber p.expAmount = JSNum.fin 0
          ∨ stringToNumber p.expAmount = JSNum.nan) := by
    rw [truthy_eq_false_iff]
  by_cases hb : p.expDesc = "" ∨ (stringToNumber p.expAmount).truthy = false
  · have hv : addExpense p now = [Effect.alert "Please enter description and amount"] := by
      simp only [addExpense, hb, if_true]
    refine ⟨⟨fun _ => hv, fun _ => hg.mp hb⟩, ⟨fun _ r => ?_, fun _ => hg.mp hb⟩,
      fun hn => absurd (hg.mp hb) hn, ?_, hc1, hc2, hc3⟩
    · rw [hv]; simp
    · intro o r hr
      cases o with
      | failed m => simp [addExpenseThen] at hr
      | response ok text je =>
        cases ok <;> cases je <;>
          simp [addExpenseThen, loadCategoryChart, loadSummary, getRequest] at hr
        rcases hr with h | h <;> rw [h]
  · have hv : addExpense p now = [Effect.fetch
        { method := "POST", url := p.origin ++ "/expenses", headers := authHeaders p.token,
          body := some
            [("description", JsonScalar.str p.expDesc),
             ("category", JsonScalar.str p.expCategory),
             ("amount", jsonOfNumber (stringToNumber p.expAmount)),
             ("date", JsonScalar.str (String.mk ((toISOString now).take 10)))] }] := by
      simp only [addExpense, hb, if_false]
    have hnb := fun h => hb (hg.mpr h)
    refine ⟨⟨fun h => absurd h hnb, fun h => ?_⟩, ⟨fun h => absurd h hnb, fun h => ?_⟩,
      fun _ => ⟨_, hv, rfl, rfl⟩, ?_, hc1, hc2, hc3⟩
    · rw [hv] at h; simp at h
    · exact absurd (by rw [hv]; exact List.mem_singleton.mpr rfl) (h _)
    · intro o r hr
      cases o with
      | failed m => simp [addExpenseThen] at hr
      | response ok text je =>
        cases ok <;> cases je <;>
          simp [addExpenseThen, loadCategoryChart, loadSummary, getRequest] at hr
        rcases hr with h | h <;> rw [h]

/-- With the description empty and the amount 50 the condition of
`addExpense_guard` holds: the alert is shown and nothing is requested. -/
theorem addExpense_guard_witness :
    addExpense (Page.mk "https://app.example" (some "t") "" "Food" "50" "" "") 0
      = [Effect.alert "Please enter description and amount"] :=
  (addExpense_guard (Page.mk "https://app.example" (some "t") "" "Food" "50" "" "") 0).1.mp
    (Or.inl rfl)


/-- C6, as stated, fails: the amount input `Infinity` passes the guard of
`addExpense` with the description `Lunch`, and the body of the POST carries
`null` for the amount, not the numeric value of the input. -/
theorem addExpense_infinite_counterexample :
    addExpense (Page.mk "https://app.example" (some "t") "Lunch" "Food" "Infinity" "" "")
        1730808000000
      = [Effect.fetch (Request.mk "POST" "https://app.example/expenses"
          [("Content-Type", "application/json"), ("Authorization", "Bearer t")]
          (some [("description", JsonScalar.str "Lunch"), ("category", JsonScalar.str "Food"),
            ("amount", JsonScalar.null), ("date", JsonScalar.str "2024-11-05")]))] := by
  simp only [addExpense, stringToNumber_infinity, isoDate_sample, JSNum.truthy, jsonOfNumber,
    authHeaders]
  decide

/-- C6, amended: for every description and category and every amount input
that pass the guard of `addExpense` with a finite amount `q` (the double that
`Number` reads from the text), and every instant `now`, the body of the one
POST to `/expenses` is the object with exactly the members description,
category, amount and date, in this order: the two input strings unchanged, the
number `q`, and the first 10 characters of the ISO-8601 UTC rendering of
`now`, which are of the form YYYY-MM-DD when the UTC year of `now` is between
0 and 9999.  So the text `9007199254740993` is sent as 9007199254740992, and
the text `1e400`, which overflows to `Infinity`, is sent as `null`. -/
theorem addExpense_body (p : Page) (now : Int) (q : ℚ)
    (hd : p.expDesc ≠ "") (hq : stringToNumber p.expAmount = JSNum.fin q) (hq0 : q ≠ 0) :
    addExpense p now
        = [Effect.fetch (Request.mk "POST" (p.origin ++ "/expenses") (authHeaders p.token)
            (some [("description", JsonScalar.str p.expDesc),
              ("category", JsonScalar.str p.expCategory),
              ("amount", JsonScalar.num q),
              ("date", JsonScalar.str (String.mk ((toISOString now).take 10)))]))]
      ∧ (0 ≤ (civilFromDays (now / 86400000)).1 ∧ (civilFromDays (now / 86400000)).1 ≤ 9999 →
          ∃ y1 y2 y3 y4 m1 m2 d1 d2 : Char,
            (toISOString now).take 10 = [y1, y2, y3, y4, '-', m1, m2, '-', d1, d2]
              ∧ y1.isDigit = true ∧ y2.isDigit = true ∧ y3.isDigit = true ∧ y4.isDigit = true
              ∧ m1.isDigit = true ∧ m2.isDigit = true ∧ d1.isDigit = true
              ∧ d2.isDigit = true)
      ∧ roundDouble q = JSNum.fin q
      ∧ addExpense { p with expDesc := "Lunch", expAmount := "9007199254740993" } now
          = [Effect.fetch (Request.mk "POST" (p.origin ++ "/expenses") (authHeaders p.token)
              (some [("description", JsonScalar.str "Lunch"),
                ("category", JsonScalar.str p.expCategory),
                ("amount", JsonScalar.num 9007199254740992),
                ("date", JsonScalar.str (String.mk ((toISOString now).take 10)))]))]
      ∧ addExpense { p with expDesc := "Lunch", expAmount := "1e400" } now
          = [Effect.fetch (Request.mk "POST" (p.origin ++ "/expenses") (authHeaders p.token)
              (some [("description", JsonScalar.str "Lunch"),
                ("category", JsonScalar.str p.expCategory),
                ("amount", JsonScalar.null),
                ("date", JsonScalar.str (String.mk ((toISOString now).take 10)))]))] := by
  refine ⟨?_, ?_, stringToNumber_double _ q hq, ?_, ?_⟩
  · simp [addExpense, hd, hq, JSNum.truthy, hq0, jsonOfNumber]
  · intro hy
    exact ⟨_, _, _, _, _, _, _, _, isoDate_shape now hy, digitChar_isDigit _,
      digitChar_isDigit _, digitChar_isDigit _, digitChar_isDigit _, digitChar_isDigit _,
      digitChar_isDigit _, digitChar_isDigit _, digitChar_isDigit _⟩
  · rw [addExpense_posted _ _ (by
      show ¬ ("Lunch" = "" ∨ (stringToNumber "9007199254740993").truthy = false)
      rw [stringToNumber_2p53_plus_1]
      simp [JSNum.truthy])]
    show [Effect.fetch (Request.mk "POST" (p.origin ++ "/expenses") (authHeaders p.token)
        (some [("description", JsonScalar.str "Lunch"),
          ("category", JsonScalar.str p.expCategory),
          ("amount", jsonOfNumber (stringToNumber "9007199254740993")),
          ("date", JsonScalar.str (String.mk ((toISOString now).take 10)))]))] = _
    rw [stringToNumber_2p53_plus_1]
    rfl
  · rw [addExpense_posted _ _ (by
      show ¬ ("Lunch" = "" ∨ (stringToNumber "1e400").truthy = false)
      rw [stringToNumber_overflow]
      simp [JSNum.truthy])]
    show [Effect.fetch (Request.mk "POST" (p.origin ++ "/expenses") (authHeaders p.token)
        (some [("description", JsonScalar.str "Lunch"),
          ("category", JsonScalar.str p.expCategory),
          ("amount", jsonOfNumber (stringToNumber "1e400")),
          ("date", JsonScalar.str (String.mk ((toISOString now).take 10)))]))] = _
    rw [stringToNumber_overflow]
    rfl

/-- With the description `Lunch`, the amount 25 and the category `Food` on
2024-11-05 the hypotheses of `addExpense_body` hold and the body is the object
with these values and the date `2024-11-05`. -/
theorem addExpense_body_witness :
    addExpense (Page.mk "https://app.example" (some "t") "Lunch" "Food" "25" "" "")
        1730808000000
      = [Effect.fetch (Request.mk "POST" "https://app.example/expenses"
          [("Content-Type", "application/json"), ("Authorization", "Bearer t")]
          (some [("description", JsonScalar.str "Lunch"), ("category", JsonScalar.str "Food"),
            ("amount", JsonScalar.num 25), ("date", JsonScalar.str "2024-11-05")]))] := by
  have h := (addExpense_body
    (Page.mk "https://app.example" (some "t") "Lunch" "Food" "25" "" "") 1730808000000 25
    (by decide) stringToNumber_25 (by norm_num)).1
  rw [isoDate_sample] at h
  rw [h]
  decide


theorem toLocaleString_natCast (n : Nat) :
    toLocaleString (JSNum.fin (n : ℚ))
      = String.mk ((groupRev 0 (natDigits (n + 1) n).reverse).reverse) := by
  have hfloor : (⌊|(n : ℚ)| * 1000 + 1 / 2⌋ : ℤ) = ((n * 1000 : ℕ) : ℤ) := by
    rw [Int.floor_eq_iff]
    have h0 : (0 : ℚ) ≤ (n : ℚ) := Nat.cast_nonneg n
    rw [abs_of_nonneg h0]
    push_cast
    constructor <;> linarith
  have hneg : ¬ ((n : ℚ) < 0) := not_lt.mpr (Nat.cast_nonneg n)
  simp only [toLocaleString, hfloor, Int.toNat_ofNat, hneg, if_false, List.nil_append]
  have h1 : n * 1000 / 1000 = n := Nat.mul_div_cancel n (by norm_num)
  have h2 : n * 1000 % 1000 = 0 := Nat.mul_mod_left n 1000
  rw [h1, h2]
  simp [fractionDigits]

theorem toLocaleString_zero : toLocaleString (JSNum.fin 0) = "0" := by
  have h := toLocaleString_natCast 0
  rw [Nat.cast_zero] at h
  rw [h]
  decide

theorem toLocaleString_1000 : toLocaleString (stringToNumber "1000") = "1,000" := by
  rw [stringToNumber_1000, toLocaleString_natCast]
  decide

theorem toLocaleString_400 : toLocaleString (stringToNumber "400") = "400" := by
  rw [stringToNumber_400, toLocaleString_natCast]
  decide

/-! ## The dashboard: C7 -/

/-- C7, as stated, fails: for the response with total_income "1000",
total_expenses "400" and no net_balance, the text `loadSummary` writes to the
net-balance display is `GHS 0`, which is not `GHS 600`. -/
theorem netBalance_counterexample :
    (loadSummaryThen [("total_income", JSVal.str "1000"),
        ("total_expenses", JSVal.str "400")] true ChartState.init).netBalance = "GHS 0"
      ∧ (loadSummaryThen [("total_income", JSVal.str "1000"),
        ("total_expenses", JSVal.str "400")] true ChartState.init).netBalance ≠ "GHS 600" := by
  have g : getProp [("total_income", JSVal.str "1000"), ("total_expenses", JSVal.str "400")]
      "net_balance" = JSVal.undefined := by decide
  have h : (loadSummaryThen [("total_income", JSVal.str "1000"),
      ("total_expenses", JSVal.str "400")] true ChartState.init).netBalance = "GHS 0" := by
    simp only [loadSummaryThen, g, JSVal.or, JSVal.truthy, JSVal.toNumber]
    simp [JSNum.round, roundDouble_zero, toLocaleString_zero]
  rw [h]
  exact ⟨rfl, by decide⟩

/-- C7, amended: for the response with total_income "1000", total_expenses
"400" and no net_balance, `loadSummary` writes `GHS 0` to the net-balance
display (the fallback for the missing field), `GHS 1,000` to the income
display and `GHS 400` to the expenses display, and draws the bar chart of 1000
and 400. -/
theorem netBalance_fallback (ctx : Bool) (s : ChartState) :
    (loadSummaryThen [("total_income", JSVal.str "1000"),
        ("total_expenses", JSVal.str "400")] ctx s).netBalance = "GHS 0"
      ∧ (loadSummaryThen [("total_income", JSVal.str "1000"),
        ("total_expenses", JSVal.str "400")] ctx s).totalIncome = "GHS 1,000"
      ∧ (loadSummaryThen [("total_income", JSVal.str "1000"),
        ("total_expenses", JSVal.str "400")] ctx s).totalExpenses = "GHS 400"
      ∧ (loadSummaryThen [("total_income", JSVal.str "1000"),
        ("total_expenses", JSVal.str "400")] ctx s).charts
          = drawBarChart ctx (JSNum.fin 1000) (JSNum.fin 400) s := by
  have g1 : getProp [("total_income", JSVal.str "1000"), ("total_expenses", JSVal.str "400")]
      "net_balance" = JSVal.undefined := by decide
  have g2 : getProp [("total_income", JSVal.str "1000"), ("total_expenses", JSVal.str "400")]
      "total_income" = JSVal.str "1000" := by decide
  have g3 : getProp [("total_income", JSVal.str "1000"), ("total_expenses", JSVal.str "400")]
      "total_expenses" = JSVal.str "400" := by decide
  simp only [loadSummaryThen, g1, g2, g3, JSVal.or, JSVal.truthy, JSVal.toNumber]
  refine ⟨by simp [JSNum.round, roundDouble_zero, toLocaleString_zero],
    by simp [toLocaleString_1000],
    by simp [toLocaleString_400], ?_⟩
  simp [stringToNumber_1000, stringToNumber_400]


/-! ## Facts about the storage and the charts -/

theorem getItem_setItem (st : Storage) (k v : String) :
    getItem (setItem st k v) k = some v := by
  induction st with
  | nil => simp [setItem, getItem]
  | cons kv rest ih =>
    obtain ⟨k1, v1⟩ := kv
    by_cases h : k1 = k
    · simp [setItem, getItem, h]
    · simp [setItem, getItem, h, ih]

theorem currentTheme_setItem (st : Storage) (v : String) (hv : v ≠ "") :
    currentTheme (setItem st "theme" v) = v := by
  simp [currentTheme, getItem_setItem, hv]

theorem toggleDark_twice (s : ThemeState) :
    (applyTheme (toggleDark (toggleDark s))).dataTheme
      = some (if currentTheme s.storage = "dark" then "dark" else "light") := by
  by_cases h : currentTheme s.storage = "dark"
  · simp [applyTheme, toggleDark, h, currentTheme_setItem]
  · simp [applyTheme, toggleDark, h, currentTheme_setItem]

theorem drawBarChart_invariant (ctx : Bool) (income expenses : JSNum) (s : ChartState)
    (h : s.live = s.barChart.toList) :
    (drawBarChart ctx income expenses s).live
      = (drawBarChart ctx income expenses s).barChart.toList := by
  cases ctx with
  | false => simpa [drawBarChart] using h
  | true =>
    cases hb : s.barChart with
    | none =>
      rw [hb] at h
      simp [drawBarChart, hb, ChartState.create, h]
    | some old =>
      rw [hb] at h
      simp [drawBarChart, hb, ChartState.create, ChartState.destroy, h]

theorem drawAll_invariant (calls : List DrawCall) (s : ChartState)
    (h : s.live = s.barChart.toList) :
    (drawAll calls s).live = (drawAll calls s).barChart.toList := by
  induction calls generalizing s with
  | nil => simpa [drawAll] using h
  | cons c rest ih =>
    have step := drawBarChart_invariant c.ctx c.income c.expenses s h
    simpa [drawAll] using ih _ step

/-! ## The theme, the charts and the refresh: C8 to C10 -/

/-- C8, as stated, fails: with the theme key holding `blue`, two calls of
`toggleDark` followed by `applyTheme` set the attribute to `light`, while
`applyTheme` alone sets it to `blue`. -/
theorem toggle_twice_counterexample :
    (applyTheme (toggleDark (toggleDark (ThemeState.mk [("theme", "blue")] none)))).dataTheme
        = some "light"
      ∧ (applyTheme (ThemeState.mk [("theme", "blue")] none)).dataTheme = some "blue" := by
  decide

/-- C8, amended: for every storage state whose theme key is absent or holds
the empty string, `light` or `dark`, two calls of `toggleDark` followed by
`applyTheme` set the same `data-theme` attribute as `applyTheme` alone. -/
theorem toggle_twice_apply (s : ThemeState)
    (h : getItem s.storage "theme" = none ∨ getItem s.storage "theme" = some ""
      ∨ getItem s.storage "theme" = some "light" ∨ getItem s.storage "theme" = some "dark") :
    (applyTheme (toggleDark (toggleDark s))).dataTheme = (applyTheme s).dataTheme := by
  rw [toggleDark_twice]
  rcases h with h | h | h | h <;> simp [applyTheme, currentTheme, h]

/-- With the theme key holding `dark` the hypothesis of `toggle_twice_apply`
holds, and both sides set the attribute to `dark`. -/
theorem toggle_twice_apply_witness :
    (applyTheme (toggleDark (toggleDark (ThemeState.mk [("theme", "dark")] none)))).dataTheme
      = (applyTheme (ThemeState.mk [("theme", "dark")] none)).dataTheme :=
  toggle_twice_apply (ThemeState.mk [("theme", "dark")] none)
    (Or.inr (Or.inr (Or.inr (by decide))))

/-- C9: after every sequence of calls of `drawBarChart` from the initial
state the live bar-chart instances are exactly the one held in `barChart`, if
any, so at most one; two successive calls on an existing canvas create the
first instance, destroy it, and only then create the second. -/
theorem drawBarChart_single_instance (calls : List DrawCall) :
    (drawAll calls ChartState.init).live = (drawAll calls ChartState.init).barChart.toList
      ∧ (drawAll calls ChartState.init).live.length ≤ 1
      ∧ (∀ a b c d : JSNum,
          (drawAll [DrawCall.mk true a b, DrawCall.mk true c d] ChartState.init).events
              = [ChartEvent.created 0 "barChart"
                  (ChartConfig.mk "bar" ["Income", "Expenses"] [a, b] ["#1cc88a", "#e74a3b"]),
                 ChartEvent.destroyed 0,
                 ChartEvent.created 1 "barChart"
                  (ChartConfig.mk "bar" ["Income", "Expenses"] [c, d] ["#1cc88a", "#e74a3b"])]
            ∧ (drawAll [DrawCall.mk true a b, DrawCall.mk true c d] ChartState.init).live = [1]
            ∧ (drawAll [DrawCall.mk true a b, DrawCall.mk true c d] ChartState.init).barChart
                = some 1) := by
  have hinv := drawAll_invariant calls ChartState.init rfl
  refine ⟨hinv, ?_, ?_⟩
  · rw [hinv]
    cases (drawAll calls ChartState.init).barChart <;> simp
  · intro a b c d
    simp [drawAll, drawBarChart, ChartState.init, ChartState.create, ChartState.destroy]

/-- C10: wherever `loadBudget` is a function, `refreshAll` calls it without
argument: it issues the budget-status request for the path
`/budget-status/undefined`, whatever the month input holds, and no request for
another budget-status path. -/
theorem refreshAll_budget_undefined (sc : Scope) (p : Page) (h : sc.loadBudget = true) :
    Effect.fetch (loadBudget p none) ∈ refreshAll sc p
      ∧ (loadBudget p none).url = p.origin ++ "/budget-status/undefined"
      ∧ (∀ m : String, refreshAll sc { p with budgetMonth := m } = refreshAll sc p)
      ∧ (∀ r, Effect.fetch r ∈ refreshAll sc p →
          r.url = p.origin ++ "/net-balance"
            ∨ r.url = p.origin ++ "/budget-status/undefined") := by
  refine ⟨?_, rfl, fun m => rfl, ?_⟩
  · simp [refreshAll, h]
  · intro r hr
    obtain ⟨a, b, c, d, e⟩ := sc
    cases a <;> cases b <;> cases c <;> cases d <;> cases e <;>
      simp [refreshAll, loadSummary, loadBudget, getRequest] at hr h ⊢ <;>
      first
        | (rcases hr with hr | hr <;> simp [hr])
        | simp [hr]

/-- On a budget page whose month input holds `2024-11`, with `app.js` loaded,
the hypothesis of `refreshAll_budget_undefined` holds and the request is for
`/budget-status/undefined`. -/
theorem refreshAll_budget_undefined_witness :
    (loadBudget (Page.mk "https://app.example" (some "t") "" "" "" "2024-11" "") none).url
      = "https://app.example" ++ "/budget-status/undefined" :=
  (refreshAll_budget_undefined (Scope.mk true false false true false)
    (Page.mk "https://app.example" (some "t") "" "" "" "2024-11" "") rfl).2.1

end Finance

